import Mathlib

/-!
Verification of the VM-to-assembly translator in `src/translator/parser.py`
(the line normalizer `clean`/`clean_instructions`, the instruction record
`ByteCodeInst` with its parser `from_string`, and the per-instruction code
generator `to_asm` with its handler dispatch).

Text is modelled as `List Char`.  Python's builtin string operations used by
the source (`str.split`, `str.strip`, `str.index`, `int(...)`, `str.lower`,
f-string interpolation of `int`/`None`) are given explicit executable models
below, restricted to the ASCII behaviour the translator exercises.
-/

set_option maxRecDepth 100000
set_option maxHeartbeats 1000000

namespace N2T

/-- Text is a list of characters. -/
abbrev Str := List Char

/-- Whitespace as recognised by Python's `str.strip` / `str.split` /
`re.split(r"\s+")` on ASCII text: space, tab, newline, carriage return,
vertical tab and form feed. -/
def isWs (c : Char) : Bool :=
  c = ' ' || c = '\t' || c = '\n' || c = '\r' || c = '\x0b' || c = '\x0c'

/-- Split a list at every character satisfying `p`, keeping empty pieces,
exactly like Python's `str.split(sep)` keeps empty fields.  The result is
always non-empty. -/
def splitP (p : Char → Bool) : Str → List Str
  | [] => [[]]
  | c :: rest =>
    let r := splitP p rest
    if p c then [] :: r else (c :: r.headD []) :: r.tail

/-- Python's `s.split("\n")` (used on the newline token `NEW_LINE_TOKEN`). -/
def splitNl (s : Str) : List Str := splitP (fun c => c = '\n') s

/-- Python's whitespace `str.split()` / `re.split(r"\s+")` on stripped text:
the non-empty whitespace-separated tokens. -/
def pyWords (s : Str) : List Str := (splitP isWs s).filter (fun t => t ≠ [])

/-- Remove leading whitespace (left half of Python's `str.strip`). -/
def trimLeft (s : Str) : Str := s.dropWhile isWs

/-- Remove trailing whitespace (right half of Python's `str.strip`). -/
def trimRight : Str → Str
  | [] => []
  | c :: rest =>
    match trimRight rest with
    | [] => if isWs c then [] else [c]
    | d :: r => c :: d :: r

/-- Python's `str.strip()`. -/
def pyStrip (s : Str) : Str := trimRight (trimLeft s)

/-- Truncate a line at the first occurrence of the comment marker `//`
(`line[: line.index(COMMENT_TOKEN)]` in the source, the whole line when
the marker is absent). -/
def dropComment : Str → Str
  | [] => []
  | [c] => [c]
  | c :: d :: rest =>
    if c = '/' ∧ d = '/' then [] else c :: dropComment (d :: rest)

/-- Does the text contain the two-character comment marker `//`? -/
def containsDD : Str → Bool
  | [] => false
  | [_] => false
  | c :: d :: rest => if c = '/' ∧ d = '/' then true else containsDD (d :: rest)

/-- One iteration of the loop body of `clean` in `src/translator/parser.py`:
strip the line, cut it at the first `//` and strip again, drop the line when
it is empty, otherwise collapse internal whitespace runs to single spaces
(`" ".join(re.split(r"\s+", line))`). -/
def cleanLine (line : Str) : Option Str :=
  let l := pyStrip (dropComment (pyStrip line))
  if l = [] then none
  else some (List.intercalate [' '] (pyWords l))

/-- The generator `clean` of `src/translator/parser.py`: the normalized
lines of a raw text. -/
def clean (ins : Str) : List Str := (splitNl ins).filterMap cleanLine

/-- Python's `str.lower` on one ASCII character. -/
def lowerChar (c : Char) : Char :=
  if 65 ≤ c.toNat ∧ c.toNat ≤ 90 then Char.ofNat (c.toNat + 32) else c

/-- Python's `str.lower` on ASCII text. -/
def pyLower (s : Str) : Str := s.map lowerChar

/-- The function `clean_instructions` of `src/translator/parser.py`:
newline-join the normalized lines, lowercasing the result when requested. -/
def clean_instructions (ins : Str) (to_lower : Bool) : Str :=
  let inst := List.intercalate ['\n'] (clean ins)
  if to_lower then pyLower inst else inst

example : clean_instructions "\n\n\tpush temp 9 // add to stack".data true
    = "push temp 9".data := by decide

example : clean_instructions "  PUSH   Constant \t 8 \n\n // x\n".data true
    = "push constant 8".data := by decide

/-- The Python exceptions the translator can raise, one constructor per
`raise` site: `InvalidCommandException` (from `Command.from_string`),
`InvalidSegmentException` (from `Segment.from_string` and `_get_pointer`),
`ValueError` from `int(value)` in `ByteCodeInst.from_string`, the
`ValueError("Unsupported command.")` of `to_asm`, and the `IndexError`
from `tokens[0]` on an empty token list. -/
inductive Err
  | invalidCommand
  | invalidSegment
  | valueErrorInt
  | valueErrorUnsupported
  | indexError
deriving DecidableEq

deriving instance DecidableEq for Except

/-- The `Command` enumeration of `src/translator/parser.py`. -/
inductive Command
  | PUSH | POP | ADD | SUB | NEG | EQ | GT | LT | AND | OR | NOT
deriving DecidableEq

/-- The classmethod `Command.from_string`: the `str_to_cmd` dictionary
lookup, raising `InvalidCommandException` on a missing key. -/
def Command.from_string (raw_cmd : Str) : Except Err Command :=
  if raw_cmd = "push".data then .ok .PUSH
  else if raw_cmd = "pop".data then .ok .POP
  else if raw_cmd = "add".data then .ok .ADD
  else if raw_cmd = "sub".data then .ok .SUB
  else if raw_cmd = "neg".data then .ok .NEG
  else if raw_cmd = "eq".data then .ok .EQ
  else if raw_cmd = "lt".data then .ok .LT
  else if raw_cmd = "gt".data then .ok .GT
  else if raw_cmd = "not".data then .ok .NOT
  else if raw_cmd = "and".data then .ok .AND
  else if raw_cmd = "or".data then .ok .OR
  else .error .invalidCommand

/-- The `Segment` enumeration of `src/translator/parser.py`. -/
inductive Segment
  | CONSTANT | LCL | ARG | THIS | THAT | TEMP | STATIC | POINTER
deriving DecidableEq

/-- The classmethod `Segment.from_string`: the `str_to_seg` dictionary
lookup, raising `InvalidSegmentException` on a missing key. -/
def Segment.from_string (raw_seg : Str) : Except Err Segment :=
  if raw_seg = "constant".data then .ok .CONSTANT
  else if raw_seg = "argument".data then .ok .ARG
  else if raw_seg = "local".data then .ok .LCL
  else if raw_seg = "this".data then .ok .THIS
  else if raw_seg = "that".data then .ok .THAT
  else if raw_seg = "temp".data then .ok .TEMP
  else if raw_seg = "static".data then .ok .STATIC
  else if raw_seg = "pointer".data then .ok .POINTER
  else .error .invalidSegment

/-- The `__str__` of `Segment`: the upper-case enum member name. -/
def Segment.toLabel : Segment → Str
  | .CONSTANT => "CONSTANT".data
  | .LCL => "LCL".data
  | .ARG => "ARG".data
  | .THIS => "THIS".data
  | .THAT => "THAT".data
  | .TEMP => "TEMP".data
  | .STATIC => "STATIC".data
  | .POINTER => "POINTER".data

/-- Is the character an ASCII decimal digit? -/
def isDigitCh (c : Char) : Bool := 48 ≤ c.toNat && c.toNat ≤ 57

/-- Numeric value of a digit string (most significant digit first). -/
def digitsToNat (s : Str) : Nat := s.foldl (fun a c => 10 * a + (c.toNat - 48)) 0

/-- Python's `int(token)` on a whitespace-free token, as used on the third
token of `ByteCodeInst.from_string`: an optional `+`/`-` sign followed by at
least one decimal digit succeeds, anything else raises `ValueError`.
(Underscore digit grouping, which Python would also accept, never occurs in
this language and is not modelled.) -/
def pyInt (s : Str) : Except Err Int :=
  match s with
  | '-' :: rest =>
    if rest ≠ [] ∧ rest.all isDigitCh then .ok (-(digitsToNat rest : Int))
    else .error .valueErrorInt
  | '+' :: rest =>
    if rest ≠ [] ∧ rest.all isDigitCh then .ok (digitsToNat rest : Int)
    else .error .valueErrorInt
  | _ =>
    if s ≠ [] ∧ s.all isDigitCh then .ok (digitsToNat s : Int)
    else .error .valueErrorInt

/-- Decimal digits of `n`, most significant first, with the fuel bounded
recursion made explicit. -/
def natDigitsAux : Nat → Nat → Str
  | 0, _ => []
  | fuel + 1, n =>
    if n < 10 then [Char.ofNat (48 + n)]
    else natDigitsAux fuel (n / 10) ++ [Char.ofNat (48 + n % 10)]

/-- Python's `str` on a non-negative integer. -/
def natDigits (n : Nat) : Str := natDigitsAux (n + 1) n

/-- Python's `str` on an `int`, as interpolated by the f-strings of the
snippet builders. -/
def intStr (i : Int) : Str :=
  if i < 0 then '-' :: natDigits i.natAbs else natDigits i.natAbs

/-- F-string interpolation of the optional `value` field (`None` prints as
`None`). -/
def pyStrOptInt : Option Int → Str
  | none => "None".data
  | some i => intStr i

/-- F-string interpolation of the optional `static_label` field. -/
def pyStrOpt : Option Str → Str
  | none => "None".data
  | some s => s

/-- F-string interpolation `str(self.segment)` of the optional segment
(`Segment.__str__` when present, `None` otherwise). -/
def segLabel : Option Segment → Str
  | none => "None".data
  | some s => s.toLabel

example : pyInt "-1".data = .ok (-1) := by decide
example : pyInt "022".data = .ok 22 := by decide
example : pyInt "abc".data = .error .valueErrorInt := by decide
example : intStr (-17) = "-17".data := by decide
example : pyStrOptInt (some 6) = "6".data := by decide

/-- The dataclass `ByteCodeInst` of `src/translator/parser.py`. -/
structure ByteCodeInst where
  label_suffix : Str
  cmd : Command
  segment : Option Segment
  value : Option Int
  static_label : Option Str
deriving DecidableEq

/-- The classmethod `ByteCodeInst.from_string`.  `tokens = line.split()`;
a three-element unpacking builds the full record (evaluating
`Command.from_string`, then `Segment.from_string`, then `int(value)`, in
Python's argument order); any other length falls into the `except
ValueError` branch, which indexes `tokens[0]` (an `IndexError` on an empty
token list) and builds a command-only record.  The random default
`label_suffix` is modelled as a caller-supplied suffix: no behaviour
verified here depends on its value. -/
def ByteCodeInst.from_string (line : Str) (label_suffix : Str)
    (static_label : Option Str) : Except Err ByteCodeInst :=
  match pyWords line with
  | [raw_cmd, raw_seg, value] =>
    (Command.from_string raw_cmd).bind fun cmd =>
    (Segment.from_string raw_seg).bind fun seg =>
    (pyInt value).map fun v =>
    ⟨label_suffix, cmd, some seg, some v, static_label⟩
  | [] => .error .indexError
  | raw_cmd :: _ =>
    (Command.from_string raw_cmd).map fun cmd =>
    ⟨label_suffix, cmd, none, none, none⟩

namespace ByteCodeInst

/-! The snippet builders, one per `_build_*` method.  Each definition is
the dedented value of the method's f-string: `textwrap.dedent` removes the
12- or 14-space margin of the triple-quoted literal (whitespace-only lines
shorter than the margin stay as they are), so the leading `"""` newline and
every interior comment and blank line of the source literal appear
verbatim.  Methods that only read `self.label_suffix` (resp. only
`self.value` / `self.static_label`) take that field as their argument. -/

/-- Method `_build_push_constant`. -/
def build_push_constant (value : Option Int) : Str :=
  "\n@".data ++ pyStrOptInt value ++ "\nD=A\n@SP\nA=M\nM=D\n@SP\nM=M+1\n".data

/-- Method `_build_add`. -/
def build_add : Str :=
  "\n@SP\nM=M-1\nA=M\nD=M\n@SP\nM=M-1\nA=M\nM=M+D\n@SP\nM=M+1\n".data

/-- Method `_build_sub`. -/
def build_sub : Str :=
  "\n@SP\nM=M-1\nA=M\nD=M\n@SP\nM=M-1\nA=M\nM=M-D\n@SP\nM=M+1\n".data

/-- Method `_build_eq` (the whitespace-only interior lines of the literal
are four spaces wide in the source, below the dedent margin). -/
def build_eq (suffix : Str) : Str :=
  "\n// SP--\n@SP\nM=M-1\n// D = *SP\nA=M\nD=M\n// SP--\n@SP\nM=M-1\n// D = *SP - D  <--> x - y\nA=M\nD=M-D\nM=D\n    \n// if x == 0\n@IS_EQ".data
    ++ suffix ++ "\nD;JEQ\n// else\n@ELSE".data
    ++ suffix ++ "\nD;JNE\n    \n(IS_EQ".data
    ++ suffix ++ ")\n// True in Hack ASM is -1\n@SP\nA=M\nM=-1\n// SP++\n@SP\nM=M+1\n@END_IF".data
    ++ suffix ++ "\n0;JEQ\n    \n(ELSE".data
    ++ suffix ++ ")\n// False in Hack ASM is 0\n@SP\nA=M\nM=0\n// SP++\n@SP\nM=M+1\n    \n(END_IF".data
    ++ suffix ++ ")\nD=0\n".data

/-- Method `_build_lt` (present in the source but absent from
`_handlers_map`, so never reached by `to_asm`). -/
def build_lt (suffix : Str) : Str :=
  "\n// SP--\n@SP\nM=M-1\n// D = *SP\nA=M\nD=M\n// SP--\n@SP\nM=M-1\n// D = *SP - D  <--> x - y\nA=M\nD=M-D\nM=D\n\n// if x < 0\n@IS_LESS_THAN".data
    ++ suffix ++ "\nD;JLT\n// else\n@ELSE".data
    ++ suffix ++ "\nD;JGE\n\n(IS_LESS_THAN".data
    ++ suffix ++ ")\n// True in Hack ASM is -1\n@SP\nA=M\nM=-1\n// SP++\n@SP\nM=M+1\n@END_IF".data
    ++ suffix ++ "\n0;JEQ\n\n(ELSE".data
    ++ suffix ++ ")\n// False in Hack ASM is 0\n@SP\nA=M\nM=0\n// SP++\n@SP\nM=M+1\n\n(END_IF".data
    ++ suffix ++ ")\nD=0\n".data

/-- Method `_build_gt`. -/
def build_gt (suffix : Str) : Str :=
  "\n// SP--\n@SP\nM=M-1\n// D = *SP\nA=M\nD=M\n// SP--\n@SP\nM=M-1\n// D = *SP - D  <--> x - y\nA=M\nD=M-D\nM=D\n\n// if x > 0\n@IS_GT".data
    ++ suffix ++ "\nD;JGT\n// else\n@ELSE".data
    ++ suffix ++ "\nD;JLE\n\n(IS_GT".data
    ++ suffix ++ ")\n// True in Hack ASM is -1\n@SP\nA=M\nM=-1\n// SP++\n@SP\nM=M+1\n@END_IF".data
    ++ suffix ++ "\n0;JEQ\n\n(ELSE".data
    ++ suffix ++ ")\n// False in Hack ASM is 0\n@SP\nA=M\nM=0\n// SP++\n@SP\nM=M+1\n\n(END_IF".data
    ++ suffix ++ ")\nD=0\n".data

/-- Method `_build_not`. -/
def build_not : Str :=
  "\n// SP--\n@SP\nM=M-1\n// D = *SP\nA=M\nD=M\n// *SP = !D\n@SP\nA=M\nM=!D\n@SP\nM=M+1\n".data

/-- Method `_build_neg`. -/
def build_neg : Str :=
  "\n// SP--\n@SP\nM=M-1\n// D = *SP\nA=M\nD=M\n// *SP = 0 - D\n@SP\nA=M\nM=-D\n@SP\nM=M+1\n".data

/-- Method `_build_and`. -/
def build_and : Str :=
  "\n@SP\nM=M-1\nA=M\nD=M\n@SP\nM=M-1\nA=M\nM=M&D\n@SP\nM=M+1\n".data

/-- Method `_build_or`. -/
def build_or : Str :=
  "\n@SP\nM=M-1\nA=M\nD=M\n@SP\nM=M-1\nA=M\nM=M|D\n@SP\nM=M+1\n".data

/-- Method `_build_push_segment` (`label = str(self.segment)`). -/
def build_push_segment (value : Option Int) (segment : Option Segment) : Str :=
  "\n// D = offset\n@".data ++ pyStrOptInt value
    ++ "\nD=A\n// D = D + ARG\n@".data ++ segLabel segment
    ++ "\nD=D+M\n// *SP = *D\nA=D\nD=M\n@SP\nA=M\nM=D\n// SP++\n@SP\nM=M+1\n".data

/-- Method `_build_pop_segment` (the `A=D-M` line carries a trailing space
in the source literal). -/
def build_pop_segment (value : Option Int) (segment : Option Segment) : Str :=
  "\n// D = offset\n@".data ++ pyStrOptInt value
    ++ "\nD=A\n// D = offset + segmentPointer\n@".data ++ segLabel segment
    ++ "\nD=D+M\n// SP--\n@SP\nM=M-1\nA=M\nD=D+M  // addr = addr + RAM[SP]\nA=D-M  // A = addr - RAM[SP] \nM=D-A  // RAM[A] = addr - A\n".data

/-- Method `_build_push_temp`. -/
def build_push_temp (value : Option Int) : Str :=
  "\n// i = offset\n@".data ++ pyStrOptInt value
    ++ "\nD=A\n// addr = i + 5\n@5\nD=D+A\n// *SP = *addr\nA=D\nD=M\n@SP\nA=M\nM=D\n// SP++\n@SP\nM=M+1\n".data

/-- Method `_build_pop_temp`. -/
def build_pop_temp (value : Option Int) : Str :=
  "\n@".data ++ pyStrOptInt value
    ++ "\nD=A // D = i\n@5\nD=D+A // addr = 5 + i\n@SP\nM=M-1\nA=M\nD=D+M  // addr = addr + RAM[SP]\nA=D-M  // A = addr - RAM[SP] \nM=D-A  // RAM[A] = addr - A\n".data

/-- Method `_build_push_static` (symbol `<static_label>.<value>`). -/
def build_push_static (value : Option Int) (static_label : Option Str) : Str :=
  "\n@".data ++ pyStrOpt static_label ++ ".".data ++ pyStrOptInt value
    ++ "\nD=M\n@SP\nA=M\nM=D\n// SP++\n@SP\nM=M+1\n".data

/-- Method `_build_pop_static`. -/
def build_pop_static (value : Option Int) (static_label : Option Str) : Str :=
  "\n// SP--\n@SP\nM=M-1\n// temp = *SP\nA=M\nD=M\n// *static = temp\n@".data
    ++ pyStrOpt static_label ++ ".".data ++ pyStrOptInt value ++ "\nM=D\n".data

/-- Method `_get_pointer`: the lookup `{1: "THAT", 0: "THIS"}[self.value]`,
whose `KeyError` is re-raised as `InvalidSegmentException`. -/
def get_pointer (inst : ByteCodeInst) : Except Err Str :=
  if inst.value = some 1 then .ok "THAT".data
  else if inst.value = some 0 then .ok "THIS".data
  else .error .invalidSegment

/-- Method `_build_push_pointer` (evaluating `_get_pointer` inside the
f-string, so its exception propagates before any text is built). -/
def build_push_pointer (inst : ByteCodeInst) : Except Err Str :=
  (get_pointer inst).map fun p =>
    "\n// temp = THIS\n@".data ++ p
      ++ "\nD=M\n// *SP = temp\n@SP\nA=M\nM=D\n// SP++\n@SP\nM=M+1\n".data

/-- Method `_build_pop_pointer`. -/
def build_pop_pointer (inst : ByteCodeInst) : Except Err Str :=
  (get_pointer inst).map fun p =>
    "\n// SP--\n@SP\nM=M-1\n// temp = *SP\nA=M\nD=M\n// pointer = temp\n@".data
      ++ p ++ "\nM=D\n".data

/-- Method `_handle_temp`: push for `Command.PUSH`, pop for anything else. -/
def handle_temp (inst : ByteCodeInst) : Str :=
  if inst.cmd = .PUSH then build_push_temp inst.value else build_pop_temp inst.value

/-- Method `_handle_static`. -/
def handle_static (inst : ByteCodeInst) : Str :=
  if inst.cmd = .PUSH then build_push_static inst.value inst.static_label
  else build_pop_static inst.value inst.static_label

/-- Method `_handle_pointer`. -/
def handle_pointer (inst : ByteCodeInst) : Except Err Str :=
  if inst.cmd = .PUSH then build_push_pointer inst else build_pop_pointer inst

/-- Method `_handle_generic_segment` (LCL, ARG, THIS, THAT). -/
def handle_generic_segment (inst : ByteCodeInst) : Str :=
  if inst.cmd = .PUSH then build_push_segment inst.value inst.segment
  else build_pop_segment inst.value inst.segment

/-- Method `ByteCodeInst.to_asm`: look the segment up in `_handlers_map`
first (every `Segment` member is a key, so this lookup misses exactly when
`segment` is `None`), then the command (`ADD`, `SUB`, `EQ`, `GT`, `NOT`,
`NEG`, `AND`, `OR` are keys; `PUSH`, `POP` and `LT` are not, giving
`ValueError("Unsupported command.")`), and pass the produced snippet back
through `clean_instructions`. -/
def to_asm (inst : ByteCodeInst) : Except Err Str :=
  match inst.segment with
  | some .CONSTANT => .ok (clean_instructions (build_push_constant inst.value) false)
  | some .TEMP => .ok (clean_instructions (handle_temp inst) false)
  | some .STATIC => .ok (clean_instructions (handle_static inst) false)
  | some .POINTER => (handle_pointer inst).map fun s => clean_instructions s false
  | some .LCL | some .ARG | some .THIS | some .THAT =>
    .ok (clean_instructions (handle_generic_segment inst) false)
  | none =>
    match inst.cmd with
    | .ADD => .ok (clean_instructions build_add false)
    | .SUB => .ok (clean_instructions build_sub false)
    | .EQ => .ok (clean_instructions (build_eq inst.label_suffix) false)
    | .GT => .ok (clean_instructions (build_gt inst.label_suffix) false)
    | .NOT => .ok (clean_instructions build_not false)
    | .NEG => .ok (clean_instructions build_neg false)
    | .AND => .ok (clean_instructions build_and false)
    | .OR => .ok (clean_instructions build_or false)
    | .PUSH | .POP | .LT => .error .valueErrorUnsupported

end ByteCodeInst

/-- Sequential consumption of the generator returned by `parse`: the first
failing line's exception propagates, earlier lines parse in order. -/
def parseLines (lines : List Str) (suffix : Str) (filename : Str) :
    Except Err (List ByteCodeInst) :=
  match lines with
  | [] => .ok []
  | line :: rest =>
    (ByteCodeInst.from_string line suffix (some filename)).bind fun i =>
    (parseLines rest suffix filename).map fun is => i :: is

/-- The module-level function `parse` of `src/translator/parser.py`: split
the text on newlines and feed each line to `ByteCodeInst.from_string` with
the filename as `static_label` (the per-line random `label_suffix` is again
modelled as a caller-supplied suffix). -/
def parse (ins : Str) (filename : Str) (suffix : Str) :
    Except Err (List ByteCodeInst) :=
  parseLines (splitNl ins) suffix filename

example : ByteCodeInst.from_string "push constant 6".data [] none
    = .ok ⟨[], .PUSH, some .CONSTANT, some 6, none⟩ := by decide

example : (ByteCodeInst.from_string "push constant 6".data [] none).bind
    ByteCodeInst.to_asm = .ok "@6\nD=A\n@SP\nA=M\nM=D\n@SP\nM=M+1".data := by decide

example : (ByteCodeInst.from_string "add".data [] none).bind
    ByteCodeInst.to_asm
    = .ok "@SP\nM=M-1\nA=M\nD=M\n@SP\nM=M-1\nA=M\nM=M+D\n@SP\nM=M+1".data := by decide

example : (ByteCodeInst.from_string "lt".data [] none).bind
    ByteCodeInst.to_asm = .error .valueErrorUnsupported := by decide

example : (ByteCodeInst.from_string "pop temp 6".data [] none).bind
    ByteCodeInst.to_asm
    = .ok "@6\nD=A\n@5\nD=D+A\n@SP\nM=M-1\nA=M\nD=D+M\nA=D-M\nM=D-A".data := by decide

example : (ByteCodeInst.from_string "push static 7".data [] (some "Test".data)).bind
    ByteCodeInst.to_asm
    = .ok "@Test.7\nD=M\n@SP\nA=M\nM=D\n@SP\nM=M+1".data := by decide

example : (ByteCodeInst.from_string "pop pointer 1".data [] none).bind
    ByteCodeInst.to_asm = .ok "@SP\nM=M-1\nA=M\nD=M\n@THAT\nM=D".data := by decide

example : (ByteCodeInst.from_string "eq".data "7".data none).bind
    ByteCodeInst.to_asm
    = .ok "@SP\nM=M-1\nA=M\nD=M\n@SP\nM=M-1\nA=M\nD=M-D\nM=D\n@IS_EQ7\nD;JEQ\n@ELSE7\nD;JNE\n(IS_EQ7)\n@SP\nA=M\nM=-1\n@SP\nM=M+1\n@END_IF7\n0;JEQ\n(ELSE7)\n@SP\nA=M\nM=0\n@SP\nM=M+1\n(END_IF7)\nD=0".data := by decide

/-! ### Character-level facts -/

theorem char_toNat_inj {c d : Char} (h : c.toNat = d.toNat) : c = d := by
  apply Char.eq_of_val_eq
  apply UInt32.eq_of_toBitVec_eq
  exact BitVec.eq_of_toNat_eq h

theorem toNat_ofNat_valid {n : Nat} (h : n < 55296) : (Char.ofNat n).toNat = n := by
  have hv : n.isValidChar := Or.inl h
  simp [Char.ofNat, Char.ofNatAux, hv, Char.toNat, UInt32.toNat]

theorem lowerChar_toNat (c : Char) :
    (lowerChar c).toNat =
      if 65 ≤ c.toNat ∧ c.toNat ≤ 90 then c.toNat + 32 else c.toNat := by
  unfold lowerChar
  split
  · next h => exact toNat_ofNat_valid (by omega)
  · rfl

theorem lowerChar_fix {d : Char} (hd : d.toNat < 65) (c : Char) :
    lowerChar c = d ↔ c = d := by
  constructor
  · intro h
    have ht := lowerChar_toNat c
    rw [h] at ht
    by_cases hc : 65 ≤ c.toNat ∧ c.toNat ≤ 90
    · simp [hc] at ht; omega
    · simp [hc] at ht; exact char_toNat_inj ht.symm
  · intro h
    subst h
    unfold lowerChar
    split
    · next h => omega
    · rfl

theorem isWs_lowerChar (c : Char) : isWs (lowerChar c) = isWs c := by
  unfold isWs
  rw [decide_eq_decide.mpr (@lowerChar_fix ' ' (by decide) c),
    decide_eq_decide.mpr (@lowerChar_fix '\t' (by decide) c),
    decide_eq_decide.mpr (@lowerChar_fix '\n' (by decide) c),
    decide_eq_decide.mpr (@lowerChar_fix '\r' (by decide) c),
    decide_eq_decide.mpr (@lowerChar_fix '\x0b' (by decide) c),
    decide_eq_decide.mpr (@lowerChar_fix '\x0c' (by decide) c)]

theorem lowerChar_idem (c : Char) : lowerChar (lowerChar c) = lowerChar c := by
  unfold lowerChar
  split
  · next h =>
    have ht : (Char.ofNat (c.toNat + 32)).toNat = c.toNat + 32 :=
      toNat_ofNat_valid (by omega)
    rw [if_neg (by omega)]
  · rfl

/-! ### Facts about `splitP` -/

theorem splitP_ne_nil (p : Char → Bool) (s : Str) : splitP p s ≠ [] := by
  cases s with
  | nil => simp [splitP]
  | cons c rest =>
    simp only [splitP]
    split <;> simp

theorem headD_mem_splitP (p : Char → Bool) (s : Str) :
    (splitP p s).headD [] ∈ splitP p s := by
  cases hr : splitP p s with
  | nil => exact absurd hr (splitP_ne_nil p s)
  | cons x xs => simp

theorem splitP_mem_not (p : Char → Bool) :
    ∀ s : Str, ∀ piece ∈ splitP p s, ∀ c ∈ piece, p c = false := by
  intro s
  induction s with
  | nil =>
    intro piece hp c hc
    simp only [splitP, List.mem_singleton] at hp
    subst hp; simp at hc
  | cons a rest ih =>
    intro piece hp c hc
    simp only [splitP] at hp
    by_cases h : p a
    · rw [if_pos h] at hp
      rcases List.mem_cons.mp hp with h1 | h2
      · subst h1; simp at hc
      · exact ih piece h2 c hc
    · rw [if_neg h] at hp
      rcases List.mem_cons.mp hp with h1 | h2
      · subst h1
        rcases List.mem_cons.mp hc with rfl | hc2
        · simpa using h
        · exact ih _ (headD_mem_splitP p rest) c hc2
      · exact ih piece (List.tail_subset _ h2) c hc

theorem splitP_append_sep (p : Char → Bool) {k : Char} (hk : p k = true)
    (y : Str) : ∀ x : Str, splitP p (x ++ k :: y) = splitP p x ++ splitP p y := by
  intro x
  induction x with
  | nil => simp [splitP, hk]
  | cons a rest ih =>
    simp only [List.cons_append, splitP]
    by_cases h : p a
    · simp [h, ih]
    · rw [if_neg h, if_neg h]
      cases hr : splitP p rest with
      | nil => exact absurd hr (splitP_ne_nil p rest)
      | cons u us => simp only [List.append_eq]; rw [ih, hr]; simp

theorem splitP_no_sep (p : Char → Bool) :
    ∀ s : Str, (∀ c ∈ s, p c = false) → splitP p s = [s] := by
  intro s
  induction s with
  | nil => intro _; rfl
  | cons a rest ih =>
    intro h
    have ha : p a = false := h a (by simp)
    simp only [splitP, ih (fun c hc => h c (by simp [hc])), ha]
    simp

theorem splitP_infix (p : Char → Bool) :
    ∀ s : Str, ∀ piece ∈ splitP p s, piece <:+: s := by
  intro s
  induction s with
  | nil =>
    intro piece hp
    simp only [splitP, List.mem_singleton] at hp
    subst hp; exact List.infix_rfl
  | cons a rest ih =>
    intro piece hp
    simp only [splitP] at hp
    by_cases h : p a
    · rw [if_pos h] at hp
      rcases List.mem_cons.mp hp with h1 | h2
      · subst h1; simp
      · exact (ih piece h2).trans (List.infix_cons List.infix_rfl)
    · rw [if_neg h] at hp
      rcases List.mem_cons.mp hp with h1 | h2
      · subst h1
        have hpre : (splitP p rest).headD [] <+: rest := by
          clear hp ih
          induction rest with
          | nil => simp [splitP]
          | cons b rb ihb =>
            simp only [splitP]
            by_cases hb : p b
            · rw [if_pos hb]; simp
            · rw [if_neg hb]
              cases hrb : splitP p rb with
              | nil => exact absurd hrb (splitP_ne_nil p rb)
              | cons u us =>
                rw [hrb] at ihb
                simp only [List.headD_cons] at ihb ⊢
                exact List.cons_prefix_cons.mpr ⟨rfl, ihb⟩
        exact (List.cons_prefix_cons.mpr ⟨rfl, hpre⟩).isInfix
      · exact ((ih piece (List.tail_subset _ h2)).trans (List.infix_cons List.infix_rfl))

/-! ### Facts about `List.intercalate` on character lists -/

theorem intercalate_cons2 (sep l1 l2 : Str) (ls : List Str) :
    List.intercalate sep (l1 :: l2 :: ls) = l1 ++ sep ++ List.intercalate sep (l2 :: ls) := by
  simp [List.intercalate, List.intersperse_cons_cons]

theorem intercalate_single (sep l : Str) : List.intercalate sep [l] = l := by
  simp [List.intercalate]

theorem splitP_intercalate (p : Char → Bool) {k : Char} (hk : p k = true) :
    ∀ ls : List Str, ls ≠ [] → (∀ l ∈ ls, ∀ c ∈ l, p c = false) →
    splitP p (List.intercalate [k] ls) = ls := by
  intro ls
  induction ls with
  | nil => intro h; exact absurd rfl h
  | cons l rest ih =>
    intro _ hq
    cases rest with
    | nil =>
      rw [intercalate_single]
      exact splitP_no_sep p l (hq l (by simp))
    | cons l2 rest2 =>
      rw [intercalate_cons2, List.append_assoc, List.singleton_append,
        splitP_append_sep p hk _ l,
        splitP_no_sep p l (hq l (by simp)),
        ih (by simp) (fun x hx c hc => hq x (by simp [hx]) c hc)]
      rfl

theorem mem_intercalate {c : Char} (k : Char) :
    ∀ ls : List Str, c ∈ List.intercalate [k] ls → c = k ∨ ∃ l ∈ ls, c ∈ l := by
  intro ls
  induction ls with
  | nil => intro h; simp [List.intercalate] at h
  | cons l rest ih =>
    intro h
    cases rest with
    | nil =>
      rw [intercalate_single] at h
      exact Or.inr ⟨l, by simp, h⟩
    | cons l2 rest2 =>
      rw [intercalate_cons2] at h
      rcases List.mem_append.mp h with h1 | h2
      · rcases List.mem_append.mp h1 with h3 | h4
        · exact Or.inr ⟨l, by simp, h3⟩
        · simp at h4; exact Or.inl h4
      · rcases ih h2 with h5 | ⟨x, hx, hcx⟩
        · exact Or.inl h5
        · exact Or.inr ⟨x, by simp [List.mem_cons.mp hx], hcx⟩

theorem intercalate_cons_ne_nil {l : Str} (k : Char) (hl : l ≠ [])
    (ls : List Str) : List.intercalate [k] (l :: ls) ≠ [] := by
  cases ls with
  | nil => rw [intercalate_single]; exact hl
  | cons l2 rest =>
    rw [intercalate_cons2]
    simp [hl]

/-! ### Facts about stripping and comment removal -/

theorem trimRight_shape (c : Char) (rest : Str) :
    trimRight (c :: rest) = [] ∨ ∃ t, trimRight (c :: rest) = c :: t := by
  simp only [trimRight]
  cases trimRight rest with
  | nil =>
    by_cases h : isWs c
    · simp [h]
    · simp [h]
  | cons d r => right; exact ⟨d :: r, rfl⟩

theorem trimRight_prefix_self : ∀ s : Str, trimRight s <+: s := by
  intro s
  induction s with
  | nil => simp [trimRight]
  | cons c rest ih =>
    simp only [trimRight]
    cases hr : trimRight rest with
    | nil =>
      by_cases h : isWs c
      · simp [h]
      · simp only [h, if_false]
        exact List.cons_prefix_cons.mpr ⟨rfl, List.nil_prefix⟩
    | cons d r =>
      rw [hr] at ih
      exact List.cons_prefix_cons.mpr ⟨rfl, ih⟩

theorem trimLeft_head_not_ws : ∀ (s : Str) {c : Char} {t : Str},
    trimLeft s = c :: t → isWs c = false := by
  intro s
  induction s with
  | nil => intro c t h; simp [trimLeft] at h
  | cons a rest ih =>
    intro c t h
    by_cases ha : isWs a
    · rw [trimLeft, List.dropWhile_cons_of_pos ha] at h
      exact ih h
    · rw [trimLeft, List.dropWhile_cons_of_neg ha] at h
      cases h
      simpa using ha

theorem pyStrip_head_not_ws (s : Str) {c : Char} {t : Str}
    (h : pyStrip s = c :: t) : isWs c = false := by
  unfold pyStrip at h
  cases hl : trimLeft s with
  | nil => rw [hl] at h; simp [trimRight] at h
  | cons a r =>
    rw [hl] at h
    rcases trimRight_shape a r with h0 | ⟨t2, ht2⟩
    · rw [h0] at h; cases h
    · rw [ht2] at h
      cases h
      exact trimLeft_head_not_ws s hl

theorem pyStrip_infix (s : Str) : pyStrip s <:+: s :=
  (trimRight_prefix_self (trimLeft s)).isInfix.trans (List.dropWhile_suffix isWs).isInfix

theorem dropComment_shape (c : Char) (rest : Str) :
    dropComment (c :: rest) = [] ∨ ∃ t, dropComment (c :: rest) = c :: t := by
  cases rest with
  | nil => right; exact ⟨[], rfl⟩
  | cons d r =>
    simp only [dropComment]
    by_cases h : c = '/' ∧ d = '/'
    · simp [h]
    · simp only [h, if_false]
      right; exact ⟨dropComment (d :: r), rfl⟩

theorem containsDD_dropComment : ∀ s : Str, containsDD (dropComment s) = false := by
  intro s
  induction s with
  | nil => rfl
  | cons c rest ih =>
    cases rest with
    | nil => rfl
    | cons d r =>
      simp only [dropComment]
      by_cases h : c = '/' ∧ d = '/'
      · simp [h, containsDD]
      · rw [if_neg h]
        rcases dropComment_shape d r with h0 | ⟨t, ht⟩
        · rw [h0]; rfl
        · rw [ht]
          rw [ht] at ih
          simp only [containsDD, if_neg h]
          exact ih

theorem containsDD_append_right : ∀ a b : Str, containsDD a = true →
    containsDD (a ++ b) = true := by
  intro a
  induction a with
  | nil => intro b h; simp [containsDD] at h
  | cons x a2 ih =>
    intro b h
    cases a2 with
    | nil => simp [containsDD] at h
    | cons y a3 =>
      simp only [containsDD] at h
      simp only [List.cons_append, containsDD]
      by_cases hxy : x = '/' ∧ y = '/'
      · simp [hxy]
      · rw [if_neg hxy] at h ⊢
        exact ih b h

theorem containsDD_append_left : ∀ a b : Str, containsDD b = true →
    containsDD (a ++ b) = true := by
  intro a
  induction a with
  | nil => intro b h; simpa using h
  | cons x a2 ih =>
    intro b h
    have h2 := ih b h
    cases ha : a2 ++ b with
    | nil => rw [ha] at h2; simp [containsDD] at h2
    | cons d r =>
      simp only [List.cons_append, ha, containsDD]
      rw [ha] at h2
      by_cases hxd : x = '/' ∧ d = '/'
      · simp [hxd]
      · rw [if_neg hxd]; exact h2

theorem containsDD_infix {t s : Str} (hts : t <:+: s)
    (hs : containsDD s = false) : containsDD t = false := by
  by_contra h
  have ht : containsDD t = true := by
    cases hcd : containsDD t
    · exact absurd hcd h
    · rfl
  obtain ⟨u, v, huv⟩ := hts
  subst huv
  rw [List.append_assoc,
    containsDD_append_left u _ (containsDD_append_right t v ht)] at hs
  cases hs

theorem containsDD_append_mid (k : Char) (hk : ¬ k = '/') :
    ∀ a b : Str, containsDD (a ++ k :: b) = (containsDD a || containsDD b) := by
  intro a
  induction a with
  | nil =>
    intro b
    cases b with
    | nil => simp [containsDD]
    | cons c b2 =>
      simp only [List.nil_append, containsDD]
      rw [if_neg (by tauto)]
      simp
  | cons x a2 ih =>
    intro b
    cases a2 with
    | nil =>
      simp only [List.cons_append, List.nil_append, containsDD]
      rw [if_neg (by tauto)]
      cases b with
      | nil => simp [containsDD]
      | cons c b2 =>
        simp only [containsDD]
        rw [if_neg (by tauto)]
        simp
    | cons y a3 =>
      simp only [List.cons_append, containsDD] at ih ⊢
      by_cases hxy : x = '/' ∧ y = '/'
      · simp [hxy]
      · rw [if_neg hxy, if_neg hxy]
        exact ih b

theorem containsDD_intercalate (k : Char) (hk : ¬ k = '/') :
    ∀ ls : List Str, (∀ l ∈ ls, containsDD l = false) →
    containsDD (List.intercalate [k] ls) = false := by
  intro ls
  induction ls with
  | nil => intro _; rfl
  | cons l rest ih =>
    intro hq
    cases rest with
    | nil => rw [intercalate_single]; exact hq l (by simp)
    | cons l2 rest2 =>
      rw [intercalate_cons2, List.append_assoc, List.singleton_append,
        containsDD_append_mid k hk]
      rw [hq l (by simp), ih (fun x hx => hq x (by simp [List.mem_cons.mp hx]))]
      rfl

/-! ### Quality of normalized lines -/

theorem cleanLine_out {line out : Str} (h : cleanLine line = some out) :
    out ≠ [] ∧ containsDD out = false ∧ ∀ c ∈ out, isWs c = false ∨ c = ' ' := by
  unfold cleanLine at h
  set l2 := pyStrip (dropComment (pyStrip line)) with hl2
  by_cases hz : l2 = []
  · rw [if_pos hz] at h; cases h
  · rw [if_neg hz] at h
    have hout : out = List.intercalate [' '] (pyWords l2) := by
      cases h; rfl
    obtain ⟨c, t, hct⟩ := List.exists_cons_of_ne_nil hz
    have hcws : isWs c = false :=
      pyStrip_head_not_ws (dropComment (pyStrip line)) (hl2.symm.trans hct)
    have hwords : ∃ hh tt, pyWords l2 = (c :: hh) :: tt := by
      rw [hct]
      unfold pyWords
      simp only [splitP, hcws, Bool.false_eq_true, if_false]
      rw [List.filter_cons_of_pos (by simp)]
      exact ⟨_, _, rfl⟩
    obtain ⟨hh, tt, hwt⟩ := hwords
    have hinfix : ∀ tok ∈ pyWords l2, containsDD tok = false := by
      intro tok htok
      have h1 : tok ∈ splitP isWs l2 := List.mem_of_mem_filter htok
      have h2 : tok <:+: l2 := splitP_infix isWs l2 tok h1
      have h3 : l2 <:+: dropComment (pyStrip line) := hl2 ▸ pyStrip_infix _
      exact containsDD_infix (h2.trans h3) (containsDD_dropComment (pyStrip line))
    refine ⟨?_, ?_, ?_⟩
    · rw [hout, hwt]
      exact intercalate_cons_ne_nil ' ' (by simp) tt
    · rw [hout]
      exact containsDD_intercalate ' ' (by decide) _ hinfix
    · intro c2 hc2
      rw [hout] at hc2
      rcases mem_intercalate ' ' _ hc2 with h1 | ⟨tok, htok, hc3⟩
      · exact Or.inr h1
      · exact Or.inl (splitP_mem_not isWs l2 tok (List.mem_of_mem_filter htok) c2 hc3)

theorem clean_mem_out {s l : Str} (hl : l ∈ clean s) :
    l ≠ [] ∧ containsDD l = false ∧ ∀ c ∈ l, isWs c = false ∨ c = ' ' := by
  obtain ⟨line, _, hline⟩ := List.mem_filterMap.mp hl
  exact cleanLine_out hline

theorem clean_no_nl {s l : Str} (hl : l ∈ clean s) : ∀ c ∈ l, ¬ (c = '\n') := by
  intro c hc h
  subst h
  rcases (clean_mem_out hl).2.2 _ hc with h1 | h1
  · simp [isWs] at h1
  · cases h1

theorem joined_clean (s : Str) (hne : clean s ≠ []) :
    splitNl (List.intercalate ['\n'] (clean s)) = clean s ∧
    containsDD (List.intercalate ['\n'] (clean s)) = false ∧
    List.intercalate ['\n'] (clean s) ≠ [] := by
  refine ⟨?_, ?_, ?_⟩
  · exact splitP_intercalate _ (by decide) _ hne
      (fun l hl c hc => by simpa using clean_no_nl hl c hc)
  · exact containsDD_intercalate '\n' (by decide) _ (fun l hl => (clean_mem_out hl).2.1)
  · cases hc : clean s with
    | nil => exact absurd hc hne
    | cons l rest =>
      have hlne : l ≠ [] := (@clean_mem_out s l (by rw [hc]; simp)).1
      exact intercalate_cons_ne_nil '\n' hlne rest

theorem out_quality (snippet : Str) (hne : clean snippet ≠ []) :
    clean_instructions snippet false ≠ [] ∧
    containsDD (clean_instructions snippet false) = false ∧
    ∀ l ∈ splitNl (clean_instructions snippet false), l ≠ [] ∧ containsDD l = false := by
  obtain ⟨h1, h2, h3⟩ := joined_clean snippet hne
  refine ⟨h3, h2, ?_⟩
  intro l hl
  rw [show clean_instructions snippet false = List.intercalate ['\n'] (clean snippet)
    from rfl, h1] at hl
  exact ⟨(clean_mem_out hl).1, (clean_mem_out hl).2.1⟩

theorem clean_ne_nil_of_chunk (x chunk y : Str)
    (hchunk : ∀ c ∈ chunk, ¬ c = '\n') {o : Str} (ho : cleanLine chunk = some o) :
    clean (x ++ '\n' :: (chunk ++ '\n' :: y)) ≠ [] := by
  unfold clean splitNl
  intro hnil
  rw [List.filterMap_eq_nil_iff] at hnil
  have hmem : chunk ∈ splitP (fun c => c = '\n') (x ++ '\n' :: (chunk ++ '\n' :: y)) := by
    rw [splitP_append_sep _ (by simp) _ x, splitP_append_sep _ (by simp) _ chunk,
      splitP_no_sep _ chunk (fun c hc => by simpa using hchunk c hc)]
    simp
  have := hnil chunk hmem
  rw [ho] at this
  cases this

/-! ### Lowercasing commutes with normalization -/

theorem headD_map (L : List Str) : (L.map pyLower).headD [] = pyLower (L.headD []) := by
  cases L <;> rfl

theorem tail_map (L : List Str) : (L.map pyLower).tail = L.tail.map pyLower := by
  cases L <;> rfl

theorem splitP_lower (p : Char → Bool) (hp : ∀ c, p (lowerChar c) = p c) :
    ∀ s : Str, splitP p (pyLower s) = (splitP p s).map pyLower := by
  intro s
  induction s with
  | nil => rfl
  | cons c rest ih =>
    show splitP p (lowerChar c :: pyLower rest) = _
    simp only [splitP, hp c]
    by_cases h : p c
    · rw [if_pos h, if_pos h, ih]
      rfl
    · simp only [h, if_false, ih, List.map_cons]
      rw [headD_map, tail_map]
      rfl

theorem trimLeft_lower (s : Str) : trimLeft (pyLower s) = pyLower (trimLeft s) := by
  unfold trimLeft pyLower
  rw [List.dropWhile_map]
  have hfun : (isWs ∘ lowerChar) = isWs := funext isWs_lowerChar
  rw [hfun]

theorem trimRight_lower : ∀ s : Str, trimRight (pyLower s) = pyLower (trimRight s) := by
  intro s
  induction s with
  | nil => rfl
  | cons c rest ih =>
    show trimRight (lowerChar c :: pyLower rest) = pyLower (trimRight (c :: rest))
    simp only [trimRight, ih]
    cases hr : trimRight rest with
    | nil =>
      simp only [pyLower, List.map_nil, isWs_lowerChar c]
      by_cases h : isWs c <;> simp [h, pyLower]
    | cons d r => simp [pyLower]

theorem pyStrip_lower (s : Str) : pyStrip (pyLower s) = pyLower (pyStrip s) := by
  unfold pyStrip
  rw [trimLeft_lower, trimRight_lower]

theorem dropComment_lower : ∀ s : Str, dropComment (pyLower s) = pyLower (dropComment s) := by
  intro s
  induction s with
  | nil => rfl
  | cons c rest ih =>
    cases rest with
    | nil => rfl
    | cons d r =>
      show dropComment (lowerChar c :: lowerChar d :: pyLower r) = _
      simp only [dropComment]
      rw [if_congr (and_congr (@lowerChar_fix '/' (by decide) c)
        (@lowerChar_fix '/' (by decide) d)) rfl rfl]
      by_cases h : c = '/' ∧ d = '/'
      · simp [h, pyLower]
      · rw [if_neg h, if_neg h]
        simp only [pyLower, List.map_cons]
        rw [show (lowerChar d :: List.map lowerChar r : Str) = pyLower (d :: r) from rfl, ih]
        rfl

theorem pyWords_lower (s : Str) : pyWords (pyLower s) = (pyWords s).map pyLower := by
  unfold pyWords
  rw [splitP_lower isWs isWs_lowerChar, List.filter_map]
  congr 1
  apply List.filter_congr
  intro t _
  simp [pyLower]

theorem intercalate_lower (k : Char) :
    ∀ L : List Str, pyLower (List.intercalate [k] L)
      = List.intercalate [lowerChar k] (L.map pyLower) := by
  intro L
  induction L with
  | nil => rfl
  | cons l rest ih =>
    cases rest with
    | nil => simp [intercalate_single]
    | cons l2 rest2 =>
      rw [intercalate_cons2, List.map_cons,
        show ((l2 :: rest2).map pyLower : List Str) = pyLower l2 :: rest2.map pyLower from rfl,
        intercalate_cons2]
      simp only [pyLower, List.map_append] at ih ⊢
      rw [ih]
      rfl

theorem intercalate_lower_sp (L : List Str) :
    List.intercalate [' '] (L.map pyLower) = pyLower (List.intercalate [' '] L) := by
  rw [intercalate_lower ' ', show lowerChar ' ' = ' ' from by decide]

theorem intercalate_lower_nl (L : List Str) :
    List.intercalate ['\n'] (L.map pyLower) = pyLower (List.intercalate ['\n'] L) := by
  rw [intercalate_lower '\n', show lowerChar '\n' = '\n' from by decide]

theorem cleanLine_lower (line : Str) :
    cleanLine (pyLower line) = Option.map pyLower (cleanLine line) := by
  unfold cleanLine
  rw [pyStrip_lower, dropComment_lower, pyStrip_lower]
  by_cases h : pyStrip (dropComment (pyStrip line)) = []
  · simp [h, pyLower]
  · rw [if_neg (by simp [pyLower, h]), if_neg h]
    rw [pyWords_lower, intercalate_lower_sp]
    rfl

theorem clean_lower (s : Str) : clean (pyLower s) = (clean s).map pyLower := by
  unfold clean splitNl
  rw [splitP_lower _ (fun c => decide_eq_decide.mpr (@lowerChar_fix '\n' (by decide) c)),
    List.filterMap_map]
  rw [show (cleanLine ∘ pyLower) = (fun l => Option.map pyLower (cleanLine l)) from
    funext fun l => cleanLine_lower l]
  rw [← List.map_filterMap]

theorem pyLower_idem (s : Str) : pyLower (pyLower s) = pyLower s := by
  unfold pyLower
  rw [List.map_map]
  congr 1
  funext c
  exact lowerChar_idem c

/-- Every piece of `splitP p y` other than the first is also a non-first
piece of `splitP p (x ++ y)`: prepending text can only change the first
piece. -/
theorem splitP_tail_append (p : Char → Bool) (x y : Str) :
    (splitP p y).tail ⊆ (splitP p (x ++ y)).tail := by
  induction x with
  | nil => simp
  | cons c x2 ih =>
    simp only [List.cons_append, splitP]
    by_cases h : p c
    · rw [if_pos h]
      exact fun piece hp => List.tail_subset _ (ih hp)
    · rw [if_neg h]
      exact fun piece hp => ih hp

/-- The `clean` of a text is non-empty as soon as some non-first line of a
suffix of the text survives `cleanLine`. -/
theorem clean_ne_nil_append (x y chunk : Str)
    (hchunk : chunk ∈ (splitNl y).tail) {o : Str}
    (ho : cleanLine chunk = some o) : clean (x ++ y) ≠ [] := by
  unfold clean
  intro hnil
  rw [List.filterMap_eq_nil_iff] at hnil
  have hmem : chunk ∈ splitNl (x ++ y) :=
    List.mem_of_mem_tail (splitP_tail_append _ x y hchunk)
  have := hnil chunk hmem
  rw [ho] at this
  cases this

/-- Helper for claim C9: an empty token list sends `from_string` into the
fallback branch, where `tokens[0]` raises `IndexError`. -/
theorem from_string_nil_tokens (line ls : Str) (sl : Option Str)
    (h : pyWords line = []) :
    ByteCodeInst.from_string line ls sl = .error .indexError := by
  unfold ByteCodeInst.from_string
  rw [h]

/-! ### Line-by-line computation of comparison snippets -/

/-- The normalized form of a single surviving line (`cleanLine` stripped of
its `Option`). -/
def lineWord (l : Str) : Str := (cleanLine l).getD []

/-- The number of lines of `out` equal to `target` (`out` read as
newline-separated assembly). -/
def countLine (target out : Str) : Nat :=
  ((splitNl out).filter (fun l => l = target)).length

theorem clean_append_nl (x y : Str) : clean (x ++ '\n' :: y) = clean x ++ clean y := by
  unfold clean splitNl
  rw [splitP_append_sep _ (by simp) y x, List.filterMap_append]

theorem no_nl_append {a b : Str} (ha : ∀ c ∈ a, ¬ c = '\n')
    (hb : ∀ c ∈ b, ¬ c = '\n') : ∀ c ∈ a ++ b, ¬ c = '\n' :=
  fun c hc => (List.mem_append.mp hc).elim (ha c) (hb c)

theorem not_nl_of_not_ws {c : Char} (h : isWs c = false) : ¬ c = '\n' := by
  intro hc
  subst hc
  simp [isWs] at h

theorem trimRight_head (c : Char) (rest : Str) (hc : isWs c = false) :
    ∃ t, trimRight (c :: rest) = c :: t := by
  simp only [trimRight]
  cases trimRight rest with
  | nil =>
    rw [if_neg (by simp [hc])]
    exact ⟨[], rfl⟩
  | cons d r => exact ⟨d :: r, rfl⟩

theorem dropComment_head (c : Char) (rest : Str) (hc : ¬ c = '/') :
    ∃ t, dropComment (c :: rest) = c :: t := by
  cases rest with
  | nil => exact ⟨[], rfl⟩
  | cons d r =>
    simp only [dropComment]
    rw [if_neg (by tauto)]
    exact ⟨_, rfl⟩

theorem pyStrip_head (c : Char) (rest : Str) (hc : isWs c = false) :
    ∃ t, pyStrip (c :: rest) = c :: t := by
  unfold pyStrip trimLeft
  rw [List.dropWhile_cons_of_neg (by simp [hc])]
  exact trimRight_head c rest hc

theorem pyWords_head_cons (c : Char) (rest : Str) (hc : isWs c = false) :
    ∃ hh tt, pyWords (c :: rest) = (c :: hh) :: tt := by
  unfold pyWords
  simp only [splitP]
  rw [if_neg (by simp [hc])]
  rw [List.filter_cons_of_pos (by simp)]
  exact ⟨_, _, rfl⟩

theorem intercalate_head (c : Char) (hh : Str) (tt : List Str) :
    ∃ w, List.intercalate [' '] ((c :: hh) :: tt) = c :: w := by
  cases tt with
  | nil => rw [intercalate_single]; exact ⟨hh, rfl⟩
  | cons l2 ls => rw [intercalate_cons2]; exact ⟨_, rfl⟩

theorem cleanLine_keeps_head (c : Char) (rest : Str) (hc1 : isWs c = false)
    (hc2 : ¬ c = '/') : ∃ t, cleanLine (c :: rest) = some (c :: t) := by
  obtain ⟨r1, h1⟩ := pyStrip_head c rest hc1
  obtain ⟨r2, h2⟩ := dropComment_head c r1 hc2
  obtain ⟨r3, h3⟩ := pyStrip_head c r2 hc1
  obtain ⟨hh, tt, hw⟩ := pyWords_head_cons c r3 hc1
  obtain ⟨w, hwi⟩ := intercalate_head c hh tt
  refine ⟨w, ?_⟩
  show (if pyStrip (dropComment (pyStrip (c :: rest))) = [] then none
    else some (List.intercalate [' ']
      (pyWords (pyStrip (dropComment (pyStrip (c :: rest))))))) = some (c :: w)
  rw [h1, h2, h3, if_neg (by simp), hw, hwi]

theorem lineWord_head (c : Char) (rest : Str) (hc1 : isWs c = false)
    (hc2 : ¬ c = '/') : ∃ t, lineWord (c :: rest) = c :: t := by
  obtain ⟨t, ht⟩ := cleanLine_keeps_head c rest hc1 hc2
  refine ⟨t, ?_⟩
  unfold lineWord
  rw [ht]
  rfl

theorem clean_headline_cons (c : Char) (q y : Str) (hc1 : isWs c = false)
    (hc2 : ¬ c = '/') (hq : ∀ ch ∈ q, ¬ ch = '\n') :
    clean ((c :: q) ++ '\n' :: y) = lineWord (c :: q) :: clean y := by
  rw [clean_append_nl]
  have hsingle : splitNl (c :: q) = [c :: q] := by
    apply splitP_no_sep
    intro ch hch
    rcases List.mem_cons.mp hch with rfl | hm
    · simpa using not_nl_of_not_ws hc1
    · simpa using hq ch hm
  obtain ⟨t, ht⟩ := cleanLine_keeps_head c q hc1 hc2
  have h1 : clean (c :: q) = [lineWord (c :: q)] := by
    unfold clean
    rw [hsingle, List.filterMap_cons, ht]
    unfold lineWord
    rw [ht]
    rfl
  rw [h1]
  rfl

theorem head_mismatch {c d : Char} (hcd : ¬ c = d) (u w : Str) :
    ¬ (c :: u = d :: w) := fun hx => absurd (List.cons.inj hx).1 hcd

theorem eqR1 (Z : Str) :
    clean ("\n// SP--\n@SP\nM=M-1\n// D = *SP\nA=M\nD=M\n// SP--\n@SP\nM=M-1\n// D = *SP - D  <--> x - y\nA=M\nD=M-D\nM=D\n    \n// if x == 0\n@IS_EQ".data ++ Z)
      = ["@SP".data, "M=M-1".data, "A=M".data, "D=M".data, "@SP".data, "M=M-1".data, "A=M".data, "D=M-D".data, "M=D".data]
        ++ clean ("@IS_EQ".data ++ Z) := by
  show clean ("\n// SP--\n@SP\nM=M-1\n// D = *SP\nA=M\nD=M\n// SP--\n@SP\nM=M-1\n// D = *SP - D  <--> x - y\nA=M\nD=M-D\nM=D\n    \n// if x == 0".data ++ '\n' :: ("@IS_EQ".data ++ Z)) = _
  rw [clean_append_nl,
    show clean "\n// SP--\n@SP\nM=M-1\n// D = *SP\nA=M\nD=M\n// SP--\n@SP\nM=M-1\n// D = *SP - D  <--> x - y\nA=M\nD=M-D\nM=D\n    \n// if x == 0".data = ["@SP".data, "M=M-1".data, "A=M".data, "D=M".data, "@SP".data, "M=M-1".data, "A=M".data, "D=M-D".data, "M=D".data] from by decide]

theorem eqH1 (sfx : Str) (Z : Str) (hs : ∀ c ∈ sfx, ¬ c = '\n') :
    clean ("@IS_EQ".data ++ (sfx ++ ("\nD;JEQ\n// else\n@ELSE".data ++ Z)))
      = lineWord ('@' :: ("IS_EQ".data ++ sfx)) :: clean ("D;JEQ\n// else\n@ELSE".data ++ Z) := by
  show clean (('@' :: ("IS_EQ".data ++ sfx)) ++ '\n' :: ("D;JEQ\n// else\n@ELSE".data ++ Z)) = _
  exact clean_headline_cons '@' _ _ (by decide) (by decide)
    (no_nl_append (by decide) hs)

theorem eqR2 (Z : Str) :
    clean ("D;JEQ\n// else\n@ELSE".data ++ Z)
      = ["D;JEQ".data]
        ++ clean ("@ELSE".data ++ Z) := by
  show clean ("D;JEQ\n// else".data ++ '\n' :: ("@ELSE".data ++ Z)) = _
  rw [clean_append_nl,
    show clean "D;JEQ\n// else".data = ["D;JEQ".data] from by decide]

theorem eqH2 (sfx : Str) (Z : Str) (hs : ∀ c ∈ sfx, ¬ c = '\n') :
    clean ("@ELSE".data ++ (sfx ++ ("\nD;JNE\n    \n(IS_EQ".data ++ Z)))
      = lineWord ('@' :: ("ELSE".data ++ sfx)) :: clean ("D;JNE\n    \n(IS_EQ".data ++ Z) := by
  show clean (('@' :: ("ELSE".data ++ sfx)) ++ '\n' :: ("D;JNE\n    \n(IS_EQ".data ++ Z)) = _
  exact clean_headline_cons '@' _ _ (by decide) (by decide)
    (no_nl_append (by decide) hs)

theorem eqR3 (Z : Str) :
    clean ("D;JNE\n    \n(IS_EQ".data ++ Z)
      = ["D;JNE".data]
        ++ clean ("(IS_EQ".data ++ Z) := by
  show clean ("D;JNE\n    ".data ++ '\n' :: ("(IS_EQ".data ++ Z)) = _
  rw [clean_append_nl,
    show clean "D;JNE\n    ".data = ["D;JNE".data] from by decide]

theorem eqH3 (sfx : Str) (Z : Str) (hs : ∀ c ∈ sfx, ¬ c = '\n') :
    clean ("(IS_EQ".data ++ (sfx ++ (")\n// True in Hack ASM is -1\n@SP\nA=M\nM=-1\n// SP++\n@SP\nM=M+1\n@END_IF".data ++ Z)))
      = lineWord ('(' :: ("IS_EQ".data ++ (sfx ++ [')'])))
        :: clean ("// True in Hack ASM is -1\n@SP\nA=M\nM=-1\n// SP++\n@SP\nM=M+1\n@END_IF".data ++ Z) := by
  have hx : sfx ++ (")\n// True in Hack ASM is -1\n@SP\nA=M\nM=-1\n// SP++\n@SP\nM=M+1\n@END_IF".data ++ Z)
      = (sfx ++ [')']) ++ ('\n' :: ("// True in Hack ASM is -1\n@SP\nA=M\nM=-1\n// SP++\n@SP\nM=M+1\n@END_IF".data ++ Z)) := by
    rw [List.append_assoc]
    rfl
  rw [hx]
  show clean (('(' :: ("IS_EQ".data ++ (sfx ++ [')']))) ++ '\n' :: ("// True in Hack ASM is -1\n@SP\nA=M\nM=-1\n// SP++\n@SP\nM=M+1\n@END_IF".data ++ Z)) = _
  exact clean_headline_cons '(' _ _ (by decide) (by decide)
    (no_nl_append (by decide) (no_nl_append hs (by decide)))

theorem eqR4 (Z : Str) :
    clean ("// True in Hack ASM is -1\n@SP\nA=M\nM=-1\n// SP++\n@SP\nM=M+1\n@END_IF".data ++ Z)
      = ["@SP".data, "A=M".data, "M=-1".data, "@SP".data, "M=M+1".data]
        ++ clean ("@END_IF".data ++ Z) := by
  show clean ("// True in Hack ASM is -1\n@SP\nA=M\nM=-1\n// SP++\n@SP\nM=M+1".data ++ '\n' :: ("@END_IF".data ++ Z)) = _
  rw [clean_append_nl,
    show clean "// True in Hack ASM is -1\n@SP\nA=M\nM=-1\n// SP++\n@SP\nM=M+1".data = ["@SP".data, "A=M".data, "M=-1".data, "@SP".data, "M=M+1".data] from by decide]

theorem eqH4 (sfx : Str) (Z : Str) (hs : ∀ c ∈ sfx, ¬ c = '\n') :
    clean ("@END_IF".data ++ (sfx ++ ("\n0;JEQ\n    \n(ELSE".data ++ Z)))
      = lineWord ('@' :: ("END_IF".data ++ sfx)) :: clean ("0;JEQ\n    \n(ELSE".data ++ Z) := by
  show clean (('@' :: ("END_IF".data ++ sfx)) ++ '\n' :: ("0;JEQ\n    \n(ELSE".data ++ Z)) = _
  exact clean_headline_cons '@' _ _ (by decide) (by decide)
    (no_nl_append (by decide) hs)

theorem eqR5 (Z : Str) :
    clean ("0;JEQ\n    \n(ELSE".data ++ Z)
      = ["0;JEQ".data]
        ++ clean ("(ELSE".data ++ Z) := by
  show clean ("0;JEQ\n    ".data ++ '\n' :: ("(ELSE".data ++ Z)) = _
  rw [clean_append_nl,
    show clean "0;JEQ\n    ".data = ["0;JEQ".data] from by decide]

theorem eqH5 (sfx : Str) (Z : Str) (hs : ∀ c ∈ sfx, ¬ c = '\n') :
    clean ("(ELSE".data ++ (sfx ++ (")\n// False in Hack ASM is 0\n@SP\nA=M\nM=0\n// SP++\n@SP\nM=M+1\n    \n(END_IF".data ++ Z)))
      = lineWord ('(' :: ("ELSE".data ++ (sfx ++ [')'])))
        :: clean ("// False in Hack ASM is 0\n@SP\nA=M\nM=0\n// SP++\n@SP\nM=M+1\n    \n(END_IF".data ++ Z) := by
  have hx : sfx ++ (")\n// False in Hack ASM is 0\n@SP\nA=M\nM=0\n// SP++\n@SP\nM=M+1\n    \n(END_IF".data ++ Z)
      = (sfx ++ [')']) ++ ('\n' :: ("// False in Hack ASM is 0\n@SP\nA=M\nM=0\n// SP++\n@SP\nM=M+1\n    \n(END_IF".data ++ Z)) := by
    rw [List.append_assoc]
    rfl
  rw [hx]
  show clean (('(' :: ("ELSE".data ++ (sfx ++ [')']))) ++ '\n' :: ("// False in Hack ASM is 0\n@SP\nA=M\nM=0\n// SP++\n@SP\nM=M+1\n    \n(END_IF".data ++ Z)) = _
  exact clean_headline_cons '(' _ _ (by decide) (by decide)
    (no_nl_append (by decide) (no_nl_append hs (by decide)))

theorem eqR6 (Z : Str) :
    clean ("// False in Hack ASM is 0\n@SP\nA=M\nM=0\n// SP++\n@SP\nM=M+1\n    \n(END_IF".data ++ Z)
      = ["@SP".data, "A=M".data, "M=0".data, "@SP".data, "M=M+1".data]
        ++ clean ("(END_IF".data ++ Z) := by
  show clean ("// False in Hack ASM is 0\n@SP\nA=M\nM=0\n// SP++\n@SP\nM=M+1\n    ".data ++ '\n' :: ("(END_IF".data ++ Z)) = _
  rw [clean_append_nl,
    show clean "// False in Hack ASM is 0\n@SP\nA=M\nM=0\n// SP++\n@SP\nM=M+1\n    ".data = ["@SP".data, "A=M".data, "M=0".data, "@SP".data, "M=M+1".data] from by decide]

theorem eqH6 (sfx : Str) (hs : ∀ c ∈ sfx, ¬ c = '\n') :
    clean ("(END_IF".data ++ (sfx ++ ")\nD=0\n".data))
      = lineWord ('(' :: ("END_IF".data ++ (sfx ++ [')'])))
        :: clean ("D=0\n".data) := by
  have hx : sfx ++ ")\nD=0\n".data
      = (sfx ++ [')']) ++ ('\n' :: ("D=0\n".data)) := by
    rw [List.append_assoc]
    rfl
  rw [hx]
  show clean (('(' :: ("END_IF".data ++ (sfx ++ [')']))) ++ '\n' :: ("D=0\n".data)) = _
  exact clean_headline_cons '(' _ _ (by decide) (by decide)
    (no_nl_append (by decide) (no_nl_append hs (by decide)))

theorem clean_build_eq (suffix : Str) (hs : ∀ c ∈ suffix, ¬ c = '\n') :
    clean (ByteCodeInst.build_eq suffix)
      = ["@SP".data, "M=M-1".data, "A=M".data, "D=M".data, "@SP".data, "M=M-1".data, "A=M".data, "D=M-D".data, "M=D".data]
        ++ lineWord ('@' :: ("IS_EQ".data ++ suffix))
        :: (["D;JEQ".data]
        ++ lineWord ('@' :: ("ELSE".data ++ suffix))
        :: (["D;JNE".data]
        ++ lineWord ('(' :: ("IS_EQ".data ++ (suffix ++ [')'])))
        :: (["@SP".data, "A=M".data, "M=-1".data, "@SP".data, "M=M+1".data]
        ++ lineWord ('@' :: ("END_IF".data ++ suffix))
        :: (["0;JEQ".data]
        ++ lineWord ('(' :: ("ELSE".data ++ (suffix ++ [')'])))
        :: (["@SP".data, "A=M".data, "M=0".data, "@SP".data, "M=M+1".data]
        ++ lineWord ('(' :: ("END_IF".data ++ (suffix ++ [')'])))
        :: ["D=0".data]))))) := by
  have hnorm : ByteCodeInst.build_eq suffix
      = "\n// SP--\n@SP\nM=M-1\n// D = *SP\nA=M\nD=M\n// SP--\n@SP\nM=M-1\n// D = *SP - D  <--> x - y\nA=M\nD=M-D\nM=D\n    \n// if x == 0\n@IS_EQ".data ++ (suffix ++ ("\nD;JEQ\n// else\n@ELSE".data ++ (suffix ++ ("\nD;JNE\n    \n(IS_EQ".data ++ (suffix ++ (")\n// True in Hack ASM is -1\n@SP\nA=M\nM=-1\n// SP++\n@SP\nM=M+1\n@END_IF".data ++ (suffix ++ ("\n0;JEQ\n    \n(ELSE".data ++ (suffix ++ (")\n// False in Hack ASM is 0\n@SP\nA=M\nM=0\n// SP++\n@SP\nM=M+1\n    \n(END_IF".data ++ (suffix ++ ")\nD=0\n".data))))))))))) := by
    unfold ByteCodeInst.build_eq
    simp only [List.append_assoc]
  rw [hnorm, eqR1, eqH1 suffix _ hs, eqR2, eqH2 suffix _ hs, eqR3,
    eqH3 suffix _ hs, eqR4, eqH4 suffix _ hs, eqR5, eqH5 suffix _ hs,
    eqR6, eqH6 suffix hs,
    show clean "D=0\n".data = ["D=0".data] from by decide]

theorem gtR1 (Z : Str) :
    clean ("\n// SP--\n@SP\nM=M-1\n// D = *SP\nA=M\nD=M\n// SP--\n@SP\nM=M-1\n// D = *SP - D  <--> x - y\nA=M\nD=M-D\nM=D\n\n// if x > 0\n@IS_GT".data ++ Z)
      = ["@SP".data, "M=M-1".data, "A=M".data, "D=M".data, "@SP".data, "M=M-1".data, "A=M".data, "D=M-D".data, "M=D".data]
        ++ clean ("@IS_GT".data ++ Z) := by
  show clean ("\n// SP--\n@SP\nM=M-1\n// D = *SP\nA=M\nD=M\n// SP--\n@SP\nM=M-1\n// D = *SP - D  <--> x - y\nA=M\nD=M-D\nM=D\n\n// if x > 0".data ++ '\n' :: ("@IS_GT".data ++ Z)) = _
  rw [clean_append_nl,
    show clean "\n// SP--\n@SP\nM=M-1\n// D = *SP\nA=M\nD=M\n// SP--\n@SP\nM=M-1\n// D = *SP - D  <--> x - y\nA=M\nD=M-D\nM=D\n\n// if x > 0".data = ["@SP".data, "M=M-1".data, "A=M".data, "D=M".data, "@SP".data, "M=M-1".data, "A=M".data, "D=M-D".data, "M=D".data] from by decide]

theorem gtH1 (sfx : Str) (Z : Str) (hs : ∀ c ∈ sfx, ¬ c = '\n') :
    clean ("@IS_GT".data ++ (sfx ++ ("\nD;JGT\n// else\n@ELSE".data ++ Z)))
      = lineWord ('@' :: ("IS_GT".data ++ sfx)) :: clean ("D;JGT\n// else\n@ELSE".data ++ Z) := by
  show clean (('@' :: ("IS_GT".data ++ sfx)) ++ '\n' :: ("D;JGT\n// else\n@ELSE".data ++ Z)) = _
  exact clean_headline_cons '@' _ _ (by decide) (by decide)
    (no_nl_append (by decide) hs)

theorem gtR2 (Z : Str) :
    clean ("D;JGT\n// else\n@ELSE".data ++ Z)
      = ["D;JGT".data]
        ++ clean ("@ELSE".data ++ Z) := by
  show clean ("D;JGT\n// else".data ++ '\n' :: ("@ELSE".data ++ Z)) = _
  rw [clean_append_nl,
    show clean "D;JGT\n// else".data = ["D;JGT".data] from by decide]

theorem gtH2 (sfx : Str) (Z : Str) (hs : ∀ c ∈ sfx, ¬ c = '\n') :
    clean ("@ELSE".data ++ (sfx ++ ("\nD;JLE\n\n(IS_GT".data ++ Z)))
      = lineWord ('@' :: ("ELSE".data ++ sfx)) :: clean ("D;JLE\n\n(IS_GT".data ++ Z) := by
  show clean (('@' :: ("ELSE".data ++ sfx)) ++ '\n' :: ("D;JLE\n\n(IS_GT".data ++ Z)) = _
  exact clean_headline_cons '@' _ _ (by decide) (by decide)
    (no_nl_append (by decide) hs)

theorem gtR3 (Z : Str) :
    clean ("D;JLE\n\n(IS_GT".data ++ Z)
      = ["D;JLE".data]
        ++ clean ("(IS_GT".data ++ Z) := by
  show clean ("D;JLE\n".data ++ '\n' :: ("(IS_GT".data ++ Z)) = _
  rw [clean_append_nl,
    show clean "D;JLE\n".data = ["D;JLE".data] from by decide]

theorem gtH3 (sfx : Str) (Z : Str) (hs : ∀ c ∈ sfx, ¬ c = '\n') :
    clean ("(IS_GT".data ++ (sfx ++ (")\n// True in Hack ASM is -1\n@SP\nA=M\nM=-1\n// SP++\n@SP\nM=M+1\n@END_IF".data ++ Z)))
      = lineWord ('(' :: ("IS_GT".data ++ (sfx ++ [')'])))
        :: clean ("// True in Hack ASM is -1\n@SP\nA=M\nM=-1\n// SP++\n@SP\nM=M+1\n@END_IF".data ++ Z) := by
  have hx : sfx ++ (")\n// True in Hack ASM is -1\n@SP\nA=M\nM=-1\n// SP++\n@SP\nM=M+1\n@END_IF".data ++ Z)
      = (sfx ++ [')']) ++ ('\n' :: ("// True in Hack ASM is -1\n@SP\nA=M\nM=-1\n// SP++\n@SP\nM=M+1\n@END_IF".data ++ Z)) := by
    rw [List.append_assoc]
    rfl
  rw [hx]
  show clean (('(' :: ("IS_GT".data ++ (sfx ++ [')']))) ++ '\n' :: ("// True in Hack ASM is -1\n@SP\nA=M\nM=-1\n// SP++\n@SP\nM=M+1\n@END_IF".data ++ Z)) = _
  exact clean_headline_cons '(' _ _ (by decide) (by decide)
    (no_nl_append (by decide) (no_nl_append hs (by decide)))

theorem gtR4 (Z : Str) :
    clean ("// True in Hack ASM is -1\n@SP\nA=M\nM=-1\n// SP++\n@SP\nM=M+1\n@END_IF".data ++ Z)
      = ["@SP".data, "A=M".data, "M=-1".data, "@SP".data, "M=M+1".data]
        ++ clean ("@END_IF".data ++ Z) := by
  show clean ("// True in Hack ASM is -1\n@SP\nA=M\nM=-1\n// SP++\n@SP\nM=M+1".data ++ '\n' :: ("@END_IF".data ++ Z)) = _
  rw [clean_append_nl,
    show clean "// True in Hack ASM is -1\n@SP\nA=M\nM=-1\n// SP++\n@SP\nM=M+1".data = ["@SP".data, "A=M".data, "M=-1".data, "@SP".data, "M=M+1".data] from by decide]

theorem gtH4 (sfx : Str) (Z : Str) (hs : ∀ c ∈ sfx, ¬ c = '\n') :
    clean ("@END_IF".data ++ (sfx ++ ("\n0;JEQ\n\n(ELSE".data ++ Z)))
      = lineWord ('@' :: ("END_IF".data ++ sfx)) :: clean ("0;JEQ\n\n(ELSE".data ++ Z) := by
  show clean (('@' :: ("END_IF".data ++ sfx)) ++ '\n' :: ("0;JEQ\n\n(ELSE".data ++ Z)) = _
  exact clean_headline_cons '@' _ _ (by decide) (by decide)
    (no_nl_append (by decide) hs)

theorem gtR5 (Z : Str) :
    clean ("0;JEQ\n\n(ELSE".data ++ Z)
      = ["0;JEQ".data]
        ++ clean ("(ELSE".data ++ Z) := by
  show clean ("0;JEQ\n".data ++ '\n' :: ("(ELSE".data ++ Z)) = _
  rw [clean_append_nl,
    show clean "0;JEQ\n".data = ["0;JEQ".data] from by decide]

theorem gtH5 (sfx : Str) (Z : Str) (hs : ∀ c ∈ sfx, ¬ c = '\n') :
    clean ("(ELSE".data ++ (sfx ++ (")\n// False in Hack ASM is 0\n@SP\nA=M\nM=0\n// SP++\n@SP\nM=M+1\n\n(END_IF".data ++ Z)))
      = lineWord ('(' :: ("ELSE".data ++ (sfx ++ [')'])))
        :: clean ("// False in Hack ASM is 0\n@SP\nA=M\nM=0\n// SP++\n@SP\nM=M+1\n\n(END_IF".data ++ Z) := by
  have hx : sfx ++ (")\n// False in Hack ASM is 0\n@SP\nA=M\nM=0\n// SP++\n@SP\nM=M+1\n\n(END_IF".data ++ Z)
      = (sfx ++ [')']) ++ ('\n' :: ("// False in Hack ASM is 0\n@SP\nA=M\nM=0\n// SP++\n@SP\nM=M+1\n\n(END_IF".data ++ Z)) := by
    rw [List.append_assoc]
    rfl
  rw [hx]
  show clean (('(' :: ("ELSE".data ++ (sfx ++ [')']))) ++ '\n' :: ("// False in Hack ASM is 0\n@SP\nA=M\nM=0\n// SP++\n@SP\nM=M+1\n\n(END_IF".data ++ Z)) = _
  exact clean_headline_cons '(' _ _ (by decide) (by decide)
    (no_nl_append (by decide) (no_nl_append hs (by decide)))

theorem gtR6 (Z : Str) :
    clean ("// False in Hack ASM is 0\n@SP\nA=M\nM=0\n// SP++\n@SP\nM=M+1\n\n(END_IF".data ++ Z)
      = ["@SP".data, "A=M".data, "M=0".data, "@SP".data, "M=M+1".data]
        ++ clean ("(END_IF".data ++ Z) := by
  show clean ("// False in Hack ASM is 0\n@SP\nA=M\nM=0\n// SP++\n@SP\nM=M+1\n".data ++ '\n' :: ("(END_IF".data ++ Z)) = _
  rw [clean_append_nl,
    show clean "// False in Hack ASM is 0\n@SP\nA=M\nM=0\n// SP++\n@SP\nM=M+1\n".data = ["@SP".data, "A=M".data, "M=0".data, "@SP".data, "M=M+1".data] from by decide]

theorem gtH6 (sfx : Str) (hs : ∀ c ∈ sfx, ¬ c = '\n') :
    clean ("(END_IF".data ++ (sfx ++ ")\nD=0\n".data))
      = lineWord ('(' :: ("END_IF".data ++ (sfx ++ [')'])))
        :: clean ("D=0\n".data) := by
  have hx : sfx ++ ")\nD=0\n".data
      = (sfx ++ [')']) ++ ('\n' :: ("D=0\n".data)) := by
    rw [List.append_assoc]
    rfl
  rw [hx]
  show clean (('(' :: ("END_IF".data ++ (sfx ++ [')']))) ++ '\n' :: ("D=0\n".data)) = _
  exact clean_headline_cons '(' _ _ (by decide) (by decide)
    (no_nl_append (by decide) (no_nl_append hs (by decide)))

theorem clean_build_gt (suffix : Str) (hs : ∀ c ∈ suffix, ¬ c = '\n') :
    clean (ByteCodeInst.build_gt suffix)
      = ["@SP".data, "M=M-1".data, "A=M".data, "D=M".data, "@SP".data, "M=M-1".data, "A=M".data, "D=M-D".data, "M=D".data]
        ++ lineWord ('@' :: ("IS_GT".data ++ suffix))
        :: (["D;JGT".data]
        ++ lineWord ('@' :: ("ELSE".data ++ suffix))
        :: (["D;JLE".data]
        ++ lineWord ('(' :: ("IS_GT".data ++ (suffix ++ [')'])))
        :: (["@SP".data, "A=M".data, "M=-1".data, "@SP".data, "M=M+1".data]
        ++ lineWord ('@' :: ("END_IF".data ++ suffix))
        :: (["0;JEQ".data]
        ++ lineWord ('(' :: ("ELSE".data ++ (suffix ++ [')'])))
        :: (["@SP".data, "A=M".data, "M=0".data, "@SP".data, "M=M+1".data]
        ++ lineWord ('(' :: ("END_IF".data ++ (suffix ++ [')'])))
        :: ["D=0".data]))))) := by
  have hnorm : ByteCodeInst.build_gt suffix
      = "\n// SP--\n@SP\nM=M-1\n// D = *SP\nA=M\nD=M\n// SP--\n@SP\nM=M-1\n// D = *SP - D  <--> x - y\nA=M\nD=M-D\nM=D\n\n// if x > 0\n@IS_GT".data ++ (suffix ++ ("\nD;JGT\n// else\n@ELSE".data ++ (suffix ++ ("\nD;JLE\n\n(IS_GT".data ++ (suffix ++ (")\n// True in Hack ASM is -1\n@SP\nA=M\nM=-1\n// SP++\n@SP\nM=M+1\n@END_IF".data ++ (suffix ++ ("\n0;JEQ\n\n(ELSE".data ++ (suffix ++ (")\n// False in Hack ASM is 0\n@SP\nA=M\nM=0\n// SP++\n@SP\nM=M+1\n\n(END_IF".data ++ (suffix ++ ")\nD=0\n".data))))))))))) := by
    unfold ByteCodeInst.build_gt
    simp only [List.append_assoc]
  rw [hnorm, gtR1, gtH1 suffix _ hs, gtR2, gtH2 suffix _ hs, gtR3,
    gtH3 suffix _ hs, gtR4, gtH4 suffix _ hs, gtR5, gtH5 suffix _ hs,
    gtR6, gtH6 suffix hs,
    show clean "D=0\n".data = ["D=0".data] from by decide]

/-! ### The claims -/

theorem clean_instructions_false (s : Str) :
    clean_instructions s false = List.intercalate ['\n'] (clean s) := rfl

theorem filter_skip (x target : Str) (hx : ¬ x = target) (L : List Str) :
    List.filter (fun l => l = target) (x :: L)
      = List.filter (fun l => l = target) L := by
  rw [List.filter_cons_of_neg (by simpa using hx)]

/-- C5 (amended): stack-pointer accounting of the snippets emitted by
`to_asm` for the arithmetic and logical commands.  For `Add`, `Sub`, `And`
and `Or` the snippet has two stack-pointer-decrement lines and one
increment line (decrements outnumber increments by one); for `Eq` and `Gt`
the snippet has two decrement lines and two increment lines (the two
increments lie on mutually exclusive branches, so the dynamic net is still
one decrement); `Lt` is absent from `_handlers_map`, so `to_asm` fails with
the unsupported-command error and emits nothing; for `Neg` and `Not` the
snippet has one decrement and one increment line (net zero). -/
theorem stack_pointer_accounting (suffix : Str) (hs : ∀ c ∈ suffix, ¬ c = '\n') :
    (∃ out, ByteCodeInst.to_asm ⟨suffix, .ADD, none, none, none⟩ = .ok out ∧
      countLine "M=M-1".data out = 2 ∧ countLine "M=M+1".data out = 1) ∧
    (∃ out, ByteCodeInst.to_asm ⟨suffix, .SUB, none, none, none⟩ = .ok out ∧
      countLine "M=M-1".data out = 2 ∧ countLine "M=M+1".data out = 1) ∧
    (∃ out, ByteCodeInst.to_asm ⟨suffix, .AND, none, none, none⟩ = .ok out ∧
      countLine "M=M-1".data out = 2 ∧ countLine "M=M+1".data out = 1) ∧
    (∃ out, ByteCodeInst.to_asm ⟨suffix, .OR, none, none, none⟩ = .ok out ∧
      countLine "M=M-1".data out = 2 ∧ countLine "M=M+1".data out = 1) ∧
    (∃ out, ByteCodeInst.to_asm ⟨suffix, .EQ, none, none, none⟩ = .ok out ∧
      countLine "M=M-1".data out = 2 ∧ countLine "M=M+1".data out = 2) ∧
    (∃ out, ByteCodeInst.to_asm ⟨suffix, .GT, none, none, none⟩ = .ok out ∧
      countLine "M=M-1".data out = 2 ∧ countLine "M=M+1".data out = 2) ∧
    ByteCodeInst.to_asm ⟨suffix, .LT, none, none, none⟩ = .error .valueErrorUnsupported ∧
    (∃ out, ByteCodeInst.to_asm ⟨suffix, .NEG, none, none, none⟩ = .ok out ∧
      countLine "M=M-1".data out = 1 ∧ countLine "M=M+1".data out = 1) ∧
    (∃ out, ByteCodeInst.to_asm ⟨suffix, .NOT, none, none, none⟩ = .ok out ∧
      countLine "M=M-1".data out = 1 ∧ countLine "M=M+1".data out = 1) := by
  refine ⟨?_, ?_, ?_, ?_, ?_, ?_, rfl, ?_, ?_⟩
  · -- ADD
    exact ⟨clean_instructions ByteCodeInst.build_add false, rfl, by decide, by decide⟩
  · -- SUB
    exact ⟨clean_instructions ByteCodeInst.build_sub false, rfl, by decide, by decide⟩
  · -- AND
    exact ⟨clean_instructions ByteCodeInst.build_and false, rfl, by decide, by decide⟩
  · -- OR
    exact ⟨clean_instructions ByteCodeInst.build_or false, rfl, by decide, by decide⟩
  · -- EQ
    have E1 := clean_build_eq suffix hs
    obtain ⟨u1, e1⟩ := lineWord_head '@' ("IS_EQ".data ++ suffix) (by decide) (by decide)
    obtain ⟨u2, e2⟩ := lineWord_head '@' ("ELSE".data ++ suffix) (by decide) (by decide)
    obtain ⟨u3, e3⟩ := lineWord_head '(' ("IS_EQ".data ++ (suffix ++ [')'])) (by decide) (by decide)
    obtain ⟨u4, e4⟩ := lineWord_head '@' ("END_IF".data ++ suffix) (by decide) (by decide)
    obtain ⟨u5, e5⟩ := lineWord_head '(' ("ELSE".data ++ (suffix ++ [')'])) (by decide) (by decide)
    obtain ⟨u6, e6⟩ := lineWord_head '(' ("END_IF".data ++ (suffix ++ [')'])) (by decide) (by decide)
    rw [e1, e2, e3, e4, e5, e6] at E1
    have hne : clean (ByteCodeInst.build_eq suffix) ≠ [] := by rw [E1]; simp
    have hsplit := (joined_clean _ hne).1
    refine ⟨clean_instructions (ByteCodeInst.build_eq suffix) false, rfl, ?_, ?_⟩
    · unfold countLine
      rw [clean_instructions_false, hsplit, E1]
      have hx1 : ¬ (('@' :: u1 : Str) = "M=M-1".data) :=
        fun h => head_mismatch (by decide) u1 "=M-1".data h
      have hx2 : ¬ (('@' :: u2 : Str) = "M=M-1".data) :=
        fun h => head_mismatch (by decide) u2 "=M-1".data h
      have hx3 : ¬ (('(' :: u3 : Str) = "M=M-1".data) :=
        fun h => head_mismatch (by decide) u3 "=M-1".data h
      have hx4 : ¬ (('@' :: u4 : Str) = "M=M-1".data) :=
        fun h => head_mismatch (by decide) u4 "=M-1".data h
      have hx5 : ¬ (('(' :: u5 : Str) = "M=M-1".data) :=
        fun h => head_mismatch (by decide) u5 "=M-1".data h
      have hx6 : ¬ (('(' :: u6 : Str) = "M=M-1".data) :=
        fun h => head_mismatch (by decide) u6 "=M-1".data h
      rw [List.filter_append, filter_skip _ _ hx1, List.filter_append, filter_skip _ _ hx2, List.filter_append, filter_skip _ _ hx3, List.filter_append, filter_skip _ _ hx4, List.filter_append, filter_skip _ _ hx5, List.filter_append, filter_skip _ _ hx6]
      decide
    · unfold countLine
      rw [clean_instructions_false, hsplit, E1]
      have hx1 : ¬ (('@' :: u1 : Str) = "M=M+1".data) :=
        fun h => head_mismatch (by decide) u1 "=M+1".data h
      have hx2 : ¬ (('@' :: u2 : Str) = "M=M+1".data) :=
        fun h => head_mismatch (by decide) u2 "=M+1".data h
      have hx3 : ¬ (('(' :: u3 : Str) = "M=M+1".data) :=
        fun h => head_mismatch (by decide) u3 "=M+1".data h
      have hx4 : ¬ (('@' :: u4 : Str) = "M=M+1".data) :=
        fun h => head_mismatch (by decide) u4 "=M+1".data h
      have hx5 : ¬ (('(' :: u5 : Str) = "M=M+1".data) :=
        fun h => head_mismatch (by decide) u5 "=M+1".data h
      have hx6 : ¬ (('(' :: u6 : Str) = "M=M+1".data) :=
        fun h => head_mismatch (by decide) u6 "=M+1".data h
      rw [List.filter_append, filter_skip _ _ hx1, List.filter_append, filter_skip _ _ hx2, List.filter_append, filter_skip _ _ hx3, List.filter_append, filter_skip _ _ hx4, List.filter_append, filter_skip _ _ hx5, List.filter_append, filter_skip _ _ hx6]
      decide
  · -- GT
    have E1 := clean_build_gt suffix hs
    obtain ⟨u1, e1⟩ := lineWord_head '@' ("IS_GT".data ++ suffix) (by decide) (by decide)
    obtain ⟨u2, e2⟩ := lineWord_head '@' ("ELSE".data ++ suffix) (by decide) (by decide)
    obtain ⟨u3, e3⟩ := lineWord_head '(' ("IS_GT".data ++ (suffix ++ [')'])) (by decide) (by decide)
    obtain ⟨u4, e4⟩ := lineWord_head '@' ("END_IF".data ++ suffix) (by decide) (by decide)
    obtain ⟨u5, e5⟩ := lineWord_head '(' ("ELSE".data ++ (suffix ++ [')'])) (by decide) (by decide)
    obtain ⟨u6, e6⟩ := lineWord_head '(' ("END_IF".data ++ (suffix ++ [')'])) (by decide) (by decide)
    rw [e1, e2, e3, e4, e5, e6] at E1
    have hne : clean (ByteCodeInst.build_gt suffix) ≠ [] := by rw [E1]; simp
    have hsplit := (joined_clean _ hne).1
    refine ⟨clean_instructions (ByteCodeInst.build_gt suffix) false, rfl, ?_, ?_⟩
    · unfold countLine
      rw [clean_instructions_false, hsplit, E1]
      have hx1 : ¬ (('@' :: u1 : Str) = "M=M-1".data) :=
        fun h => head_mismatch (by decide) u1 "=M-1".data h
      have hx2 : ¬ (('@' :: u2 : Str) = "M=M-1".data) :=
        fun h => head_mismatch (by decide) u2 "=M-1".data h
      have hx3 : ¬ (('(' :: u3 : Str) = "M=M-1".data) :=
        fun h => head_mismatch (by decide) u3 "=M-1".data h
      have hx4 : ¬ (('@' :: u4 : Str) = "M=M-1".data) :=
        fun h => head_mismatch (by decide) u4 "=M-1".data h
      have hx5 : ¬ (('(' :: u5 : Str) = "M=M-1".data) :=
        fun h => head_mismatch (by decide) u5 "=M-1".data h
      have hx6 : ¬ (('(' :: u6 : Str) = "M=M-1".data) :=
        fun h => head_mismatch (by decide) u6 "=M-1".data h
      rw [List.filter_append, filter_skip _ _ hx1, List.filter_append, filter_skip _ _ hx2, List.filter_append, filter_skip _ _ hx3, List.filter_append, filter_skip _ _ hx4, List.filter_append, filter_skip _ _ hx5, List.filter_append, filter_skip _ _ hx6]
      decide
    · unfold countLine
      rw [clean_instructions_false, hsplit, E1]
      have hx1 : ¬ (('@' :: u1 : Str) = "M=M+1".data) :=
        fun h => head_mismatch (by decide) u1 "=M+1".data h
      have hx2 : ¬ (('@' :: u2 : Str) = "M=M+1".data) :=
        fun h => head_mismatch (by decide) u2 "=M+1".data h
      have hx3 : ¬ (('(' :: u3 : Str) = "M=M+1".data) :=
        fun h => head_mismatch (by decide) u3 "=M+1".data h
      have hx4 : ¬ (('@' :: u4 : Str) = "M=M+1".data) :=
        fun h => head_mismatch (by decide) u4 "=M+1".data h
      have hx5 : ¬ (('(' :: u5 : Str) = "M=M+1".data) :=
        fun h => head_mismatch (by decide) u5 "=M+1".data h
      have hx6 : ¬ (('(' :: u6 : Str) = "M=M+1".data) :=
        fun h => head_mismatch (by decide) u6 "=M+1".data h
      rw [List.filter_append, filter_skip _ _ hx1, List.filter_append, filter_skip _ _ hx2, List.filter_append, filter_skip _ _ hx3, List.filter_append, filter_skip _ _ hx4, List.filter_append, filter_skip _ _ hx5, List.filter_append, filter_skip _ _ hx6]
      decide
  · -- NEG
    exact ⟨clean_instructions ByteCodeInst.build_neg false, rfl, by decide, by decide⟩
  · -- NOT
    exact ⟨clean_instructions ByteCodeInst.build_not false, rfl, by decide, by decide⟩

/-- Witness for C5 at the concrete suffix `"42"`. -/
theorem stack_pointer_accounting_witness :
    (∃ out, ByteCodeInst.to_asm ⟨"42".data, .ADD, none, none, none⟩ = .ok out ∧
      countLine "M=M-1".data out = 2 ∧ countLine "M=M+1".data out = 1) ∧
    (∃ out, ByteCodeInst.to_asm ⟨"42".data, .SUB, none, none, none⟩ = .ok out ∧
      countLine "M=M-1".data out = 2 ∧ countLine "M=M+1".data out = 1) ∧
    (∃ out, ByteCodeInst.to_asm ⟨"42".data, .AND, none, none, none⟩ = .ok out ∧
      countLine "M=M-1".data out = 2 ∧ countLine "M=M+1".data out = 1) ∧
    (∃ out, ByteCodeInst.to_asm ⟨"42".data, .OR, none, none, none⟩ = .ok out ∧
      countLine "M=M-1".data out = 2 ∧ countLine "M=M+1".data out = 1) ∧
    (∃ out, ByteCodeInst.to_asm ⟨"42".data, .EQ, none, none, none⟩ = .ok out ∧
      countLine "M=M-1".data out = 2 ∧ countLine "M=M+1".data out = 2) ∧
    (∃ out, ByteCodeInst.to_asm ⟨"42".data, .GT, none, none, none⟩ = .ok out ∧
      countLine "M=M-1".data out = 2 ∧ countLine "M=M+1".data out = 2) ∧
    ByteCodeInst.to_asm ⟨"42".data, .LT, none, none, none⟩ = .error .valueErrorUnsupported ∧
    (∃ out, ByteCodeInst.to_asm ⟨"42".data, .NEG, none, none, none⟩ = .ok out ∧
      countLine "M=M-1".data out = 1 ∧ countLine "M=M+1".data out = 1) ∧
    (∃ out, ByteCodeInst.to_asm ⟨"42".data, .NOT, none, none, none⟩ = .ok out ∧
      countLine "M=M-1".data out = 1 ∧ countLine "M=M+1".data out = 1) :=
  stack_pointer_accounting "42".data (by decide)

/-- C5 counterexample: for the comparison `eq` (suffix `"42"`), the
emitted snippet's stack-pointer-decrement lines do not outnumber its
increment lines by one — both counts are two. -/
theorem comparison_snippet_count_counterexample :
    ByteCodeInst.to_asm ⟨"42".data, .EQ, none, none, none⟩
      = .ok "@SP\nM=M-1\nA=M\nD=M\n@SP\nM=M-1\nA=M\nD=M-D\nM=D\n@IS_EQ42\nD;JEQ\n@ELSE42\nD;JNE\n(IS_EQ42)\n@SP\nA=M\nM=-1\n@SP\nM=M+1\n@END_IF42\n0;JEQ\n(ELSE42)\n@SP\nA=M\nM=0\n@SP\nM=M+1\n(END_IF42)\nD=0".data ∧
    ¬ (countLine "M=M-1".data "@SP\nM=M-1\nA=M\nD=M\n@SP\nM=M-1\nA=M\nD=M-D\nM=D\n@IS_EQ42\nD;JEQ\n@ELSE42\nD;JNE\n(IS_EQ42)\n@SP\nA=M\nM=-1\n@SP\nM=M+1\n@END_IF42\n0;JEQ\n(ELSE42)\n@SP\nA=M\nM=0\n@SP\nM=M+1\n(END_IF42)\nD=0".data
        = countLine "M=M+1".data "@SP\nM=M-1\nA=M\nD=M\n@SP\nM=M-1\nA=M\nD=M-D\nM=D\n@IS_EQ42\nD;JEQ\n@ELSE42\nD;JNE\n(IS_EQ42)\n@SP\nA=M\nM=-1\n@SP\nM=M+1\n@END_IF42\n0;JEQ\n(ELSE42)\n@SP\nA=M\nM=0\n@SP\nM=M+1\n(END_IF42)\nD=0".data + 1) :=
  ⟨by decide, by decide⟩



/-- C8: normalization with case folding enabled is insensitive to the
input's letter case: `clean_instructions` with `to_lower = true` returns
the same text on `s` and on the lowercased `s`. -/
theorem clean_instructions_fold_case_insensitive (s : Str) :
    clean_instructions (pyLower s) true = clean_instructions s true := by
  show pyLower (List.intercalate ['\n'] (clean (pyLower s)))
      = pyLower (List.intercalate ['\n'] (clean s))
  rw [clean_lower, intercalate_lower_nl, pyLower_idem]

/-- C1 counterexample: `to_asm` on a `Pop Constant` instruction does not
fail with the unsupported-instruction `ValueError`; it returns the
push-constant assembly. -/
theorem pop_constant_counterexample :
    ByteCodeInst.to_asm ⟨[], .POP, some .CONSTANT, some 6, none⟩
      = .ok "@6\nD=A\n@SP\nA=M\nM=D\n@SP\nM=M+1".data ∧
    ByteCodeInst.to_asm ⟨[], .POP, some .CONSTANT, some 6, none⟩
      ≠ .error .valueErrorUnsupported :=
  ⟨by decide, by decide⟩

/-- C1 (amended): for every instruction with segment `Constant`, the
segment-indexed handler `_build_push_constant` is selected regardless of
the command, so a `Pop Constant` instruction does not fail: it emits
exactly the assembly of the corresponding `Push Constant` instruction. -/
theorem pop_constant_emits_push_snippet (inst : ByteCodeInst)
    (hseg : inst.segment = some .CONSTANT) (hcmd : inst.cmd = .POP) :
    ByteCodeInst.to_asm inst
      = .ok (clean_instructions (ByteCodeInst.build_push_constant inst.value) false) ∧
    ByteCodeInst.to_asm inst = ByteCodeInst.to_asm { inst with cmd := .PUSH } := by
  obtain ⟨ls, cmd, seg, v, sl⟩ := inst
  obtain rfl : seg = some Segment.CONSTANT := hseg
  obtain rfl : cmd = Command.POP := hcmd
  exact ⟨rfl, rfl⟩

/-- Witness for C1's amended theorem at `pop constant 6`. -/
theorem pop_constant_emits_push_snippet_witness :
    ByteCodeInst.to_asm ⟨[], .POP, some .CONSTANT, some 6, none⟩
      = .ok (clean_instructions (ByteCodeInst.build_push_constant (some 6)) false) ∧
    ByteCodeInst.to_asm ⟨[], .POP, some .CONSTANT, some 6, none⟩
      = ByteCodeInst.to_asm ⟨[], .PUSH, some .CONSTANT, some 6, none⟩ :=
  pop_constant_emits_push_snippet ⟨[], .POP, some .CONSTANT, some 6, none⟩ rfl rfl

/-- C10: an instruction whose segment is absent and whose command is `Push`
or `Pop` (the parse of a two-token line such as `"push constant"`) fails
only in `to_asm`, with the generic `ValueError("Unsupported command.")`;
`from_string` itself succeeds on such a line. -/
theorem no_segment_push_pop_unsupported :
    (∀ inst : ByteCodeInst, inst.segment = none →
      inst.cmd = .PUSH ∨ inst.cmd = .POP →
      ByteCodeInst.to_asm inst = .error .valueErrorUnsupported) ∧
    ∀ (ls : Str) (sl : Option Str),
      ByteCodeInst.from_string "push constant".data ls sl
        = .ok ⟨ls, .PUSH, none, none, none⟩ := by
  constructor
  · intro inst hseg hcmd
    obtain ⟨ls, cmd, seg, v, sl⟩ := inst
    obtain rfl : seg = none := hseg
    rcases hcmd with h | h
    · obtain rfl : cmd = Command.PUSH := h
      rfl
    · obtain rfl : cmd = Command.POP := h
      rfl
  · intro ls sl
    rfl

/-- Witness for C10 at the parse of `"push constant"`. -/
theorem no_segment_push_pop_unsupported_witness :
    ByteCodeInst.to_asm ⟨"77".data, .PUSH, none, none, none⟩
      = .error .valueErrorUnsupported ∧
    ByteCodeInst.from_string "push constant".data "77".data none
      = .ok ⟨"77".data, .PUSH, none, none, none⟩ :=
  ⟨no_segment_push_pop_unsupported.1 ⟨"77".data, .PUSH, none, none, none⟩ rfl (Or.inl rfl),
    no_segment_push_pop_unsupported.2 "77".data none⟩

/-- C2 counterexample: the two-token line `"push constant"` does not fail
with a token-count error; `from_string` returns a command-only instruction. -/
theorem push_constant_two_tokens_parses :
    ByteCodeInst.from_string "push constant".data [] none
      = .ok ⟨[], .PUSH, none, none, none⟩ := by decide

/-- C2 (amended): a line whose token count differs from three (and from
zero) is not rejected with a token-count error: the three-way unpacking
fails and `from_string` falls back to the unary path, parsing only the
first token as a command and returning an instruction with no segment and
no value (`InvalidCommandException` when that token is unrecognized). -/
theorem wrong_token_count_falls_back_to_unary (line ls : Str) (sl : Option Str)
    (t : Str) (ts : List Str) (htok : pyWords line = t :: ts)
    (hlen : (t :: ts).length ≠ 3) :
    ByteCodeInst.from_string line ls sl
      = (Command.from_string t).map fun c => ⟨ls, c, none, none, none⟩ := by
  unfold ByteCodeInst.from_string
  rw [htok]
  rcases ts with _ | ⟨x, _ | ⟨y, _ | ⟨z, rest⟩⟩⟩
  · rfl
  · rfl
  · exact absurd rfl hlen
  · rfl

/-- Witness for C2's amended theorem at `"push constant"`. -/
theorem wrong_token_count_falls_back_to_unary_witness :
    ByteCodeInst.from_string "push constant".data "s".data none
      = (Command.from_string "push".data).map fun c => ⟨"s".data, c, none, none, none⟩ :=
  wrong_token_count_falls_back_to_unary "push constant".data "s".data none
    "push".data ["constant".data] (by decide) (by decide)

/-- C4 counterexample: the translation of `"push constant 6"` has 7
assembly lines, not 6. -/
theorem push_constant_6_line_count_counterexample :
    (ByteCodeInst.from_string "push constant 6".data [] none).bind ByteCodeInst.to_asm
      = .ok "@6\nD=A\n@SP\nA=M\nM=D\n@SP\nM=M+1".data ∧
    (splitNl "@6\nD=A\n@SP\nA=M\nM=D\n@SP\nM=M+1".data).length ≠ 6 :=
  ⟨by decide, by decide⟩

/-- C4 (amended): translating the line `"push constant 6"` outputs exactly
the snippet that loads the immediate 6, stores it through the stack
pointer and increments the stack pointer — exactly 7 assembly lines. -/
theorem push_constant_6_translation :
    (ByteCodeInst.from_string "push constant 6".data [] none).bind ByteCodeInst.to_asm
      = .ok "@6\nD=A\n@SP\nA=M\nM=D\n@SP\nM=M+1".data ∧
    splitNl "@6\nD=A\n@SP\nA=M\nM=D\n@SP\nM=M+1".data
      = ["@6".data, "D=A".data, "@SP".data, "A=M".data, "M=D".data,
         "@SP".data, "M=M+1".data] ∧
    (splitNl "@6\nD=A\n@SP\nA=M\nM=D\n@SP\nM=M+1".data).length = 7 :=
  ⟨by decide, by decide, by decide⟩

/-- C6 counterexample: the signed value token `"-1"` is not rejected:
`"push pointer -1"` parses to an instruction with value `-1` (the repo's
own test `test_pointer_must_be_0_or_1` relies on this). -/
theorem signed_value_token_accepted :
    ByteCodeInst.from_string "push pointer -1".data [] none
      = .ok ⟨[], .PUSH, some .POINTER, some (-1), none⟩ := by decide

/-- C6 (amended): on a three-token line with valid command and segment
tokens, the value token is parsed by Python's `int`: an optional sign
followed by decimal digits is accepted (`"-1"` yields `-1`), and any other
token raises `ValueError`. -/
theorem value_token_parsed_by_pyInt :
    (∀ (line ls : Str) (sl : Option Str) (a b v : Str) (c : Command) (s : Segment),
      pyWords line = [a, b, v] →
      Command.from_string a = .ok c →
      Segment.from_string b = .ok s →
      ByteCodeInst.from_string line ls sl
        = (pyInt v).map fun n => ⟨ls, c, some s, some n, sl⟩) ∧
    pyInt "-1".data = .ok (-1) ∧
    pyInt "12x".data = .error .valueErrorInt := by
  refine ⟨?_, by decide, by decide⟩
  intro line ls sl a b v c s htok hc hs
  unfold ByteCodeInst.from_string
  rw [htok]
  show (Command.from_string a).bind _ = _
  rw [hc]
  show (Segment.from_string b).bind _ = _
  rw [hs]
  rfl

/-- Witness for C6's amended theorem at `"push pointer -1"`. -/
theorem value_token_parsed_by_pyInt_witness :
    ByteCodeInst.from_string "push pointer -1".data [] none
      = (pyInt "-1".data).map fun n => ⟨[], .PUSH, some .POINTER, some n, none⟩ :=
  value_token_parsed_by_pyInt.1 "push pointer -1".data [] none
    "push".data "pointer".data "-1".data .PUSH .POINTER
    (by decide) (by decide) (by decide)

/-- C9 counterexample: a text that contains a zero-token line need not make
`parse` raise `IndexError` — an earlier invalid line fails first:
`"frobnicate\n"` contains the empty line but `parse` raises
`InvalidCommandException`. -/
theorem parse_earlier_error_preempts_index_error :
    "".data ∈ splitNl "frobnicate\n".data ∧
    pyWords "".data = [] ∧
    parse "frobnicate\n".data "f".data [] = .error .invalidCommand ∧
    parse "frobnicate\n".data "f".data [] ≠ .error .indexError :=
  ⟨by decide, by decide, by decide, by decide⟩

/-- C9 (amended): a line with zero whitespace tokens makes `from_string`
raise `IndexError` (outside the documented error taxonomy), and `parse` of
a text containing such a line raises the same `IndexError` provided every
line before it parses successfully. -/
theorem empty_line_index_error :
    (∀ (line ls : Str) (sl : Option Str), pyWords line = [] →
      ByteCodeInst.from_string line ls sl = .error .indexError) ∧
    ∀ (ins fname suffix : Str) (pre : List Str) (l : Str) (post : List Str),
      splitNl ins = pre ++ l :: post →
      pyWords l = [] →
      (∀ l2 ∈ pre, ∃ i, ByteCodeInst.from_string l2 suffix (some fname) = .ok i) →
      parse ins fname suffix = .error .indexError := by
  constructor
  · exact from_string_nil_tokens
  · intro ins fname suffix pre l post hsplit hl hpre
    unfold parse
    rw [hsplit]
    clear hsplit
    induction pre with
    | nil =>
      show parseLines (l :: post) suffix fname = _
      unfold parseLines
      rw [from_string_nil_tokens l suffix (some fname) hl]
      rfl
    | cons p pre2 ih =>
      obtain ⟨i, hi⟩ := hpre p (by simp)
      show parseLines (p :: (pre2 ++ l :: post)) suffix fname = _
      unfold parseLines
      rw [hi]
      show (parseLines (pre2 ++ l :: post) suffix fname).map _ = _
      rw [ih (fun l2 hl2 => hpre l2 (by simp [hl2]))]
      rfl

/-- Witness for C9's amended theorem: a whitespace-only line alone, and a
text whose second line is whitespace-only after a well-formed first line. -/
theorem empty_line_index_error_witness :
    ByteCodeInst.from_string "   ".data [] none = .error .indexError ∧
    parse "push constant 6\n \t\npop temp 1".data "f".data []
      = .error .indexError := by
  constructor
  · exact empty_line_index_error.1 "   ".data [] none (by decide)
  · exact empty_line_index_error.2 "push constant 6\n \t\npop temp 1".data "f".data []
      ["push constant 6".data] " \t".data ["pop temp 1".data]
      (by decide) (by decide)
      (by
        intro l2 hl2
        simp only [List.mem_singleton] at hl2
        subst hl2
        exact ⟨⟨[], .PUSH, some .CONSTANT, some 6, some "f".data⟩, by decide⟩)

/-- C3: for every instruction with segment `Pointer`, `to_asm` fails with
`InvalidSegmentException` exactly when the value is neither 0 nor 1; with
value 0 the emitted assembly addresses `THIS`, with value 1 it addresses
`THAT`, for both the push and the pop shape. -/
theorem pointer_bounds (inst : ByteCodeInst)
    (hseg : inst.segment = some .POINTER) :
    (ByteCodeInst.to_asm inst = .error .invalidSegment ↔
      inst.value ≠ some 0 ∧ inst.value ≠ some 1) ∧
    (inst.value = some 0 → inst.cmd = .PUSH →
      ByteCodeInst.to_asm inst = .ok "@THIS\nD=M\n@SP\nA=M\nM=D\n@SP\nM=M+1".data) ∧
    (inst.value = some 0 → inst.cmd ≠ .PUSH →
      ByteCodeInst.to_asm inst = .ok "@SP\nM=M-1\nA=M\nD=M\n@THIS\nM=D".data) ∧
    (inst.value = some 1 → inst.cmd = .PUSH →
      ByteCodeInst.to_asm inst = .ok "@THAT\nD=M\n@SP\nA=M\nM=D\n@SP\nM=M+1".data) ∧
    (inst.value = some 1 → inst.cmd ≠ .PUSH →
      ByteCodeInst.to_asm inst = .ok "@SP\nM=M-1\nA=M\nD=M\n@THAT\nM=D".data) := by
  obtain ⟨ls, cmd, seg, v, sl⟩ := inst
  obtain rfl : seg = some Segment.POINTER := hseg
  have hpop : ∀ (hv : v = some 0 ∨ v = some 1), cmd ≠ .PUSH →
      ByteCodeInst.to_asm ⟨ls, cmd, some .POINTER, v, sl⟩
        = (ByteCodeInst.build_pop_pointer ⟨ls, cmd, some .POINTER, v, sl⟩).map
            (fun s => clean_instructions s false) := by
    intro _ hc
    show (ByteCodeInst.handle_pointer _).map _ = _
    unfold ByteCodeInst.handle_pointer
    rw [if_neg (by simpa using hc)]
  have get_pointer_eq : ByteCodeInst.get_pointer ⟨ls, cmd, some .POINTER, v, sl⟩
      = if v = some 1 then .ok "THAT".data
        else if v = some 0 then .ok "THIS".data
        else .error .invalidSegment := rfl
  refine ⟨?_, ?_, ?_, ?_, ?_⟩
  · constructor
    · intro h
      constructor
      · intro hv
        have hv2 : v = some 0 := hv
        subst hv2
        by_cases hc : cmd = Command.PUSH
        · subst hc; exact Except.noConfusion h
        · rw [hpop (Or.inl rfl) hc] at h
          exact Except.noConfusion h
      · intro hv
        have hv2 : v = some 1 := hv
        subst hv2
        by_cases hc : cmd = Command.PUSH
        · subst hc; exact Except.noConfusion h
        · rw [hpop (Or.inr rfl) hc] at h
          exact Except.noConfusion h
    · rintro ⟨h0, h1⟩
      have h0v : ¬ v = some 0 := h0
      have h1v : ¬ v = some 1 := h1
      show (ByteCodeInst.handle_pointer _).map _ = _
      unfold ByteCodeInst.handle_pointer ByteCodeInst.build_push_pointer
        ByteCodeInst.build_pop_pointer
      rw [get_pointer_eq, if_neg h1v, if_neg h0v]
      split <;> rfl
  · intro hv hc
    obtain rfl : v = some 0 := hv
    obtain rfl : cmd = Command.PUSH := hc
    rfl
  · intro hv hc
    obtain rfl : v = some 0 := hv
    rw [hpop (Or.inl rfl) hc]
    rfl
  · intro hv hc
    obtain rfl : v = some 1 := hv
    obtain rfl : cmd = Command.PUSH := hc
    rfl
  · intro hv hc
    obtain rfl : v = some 1 := hv
    rw [hpop (Or.inr rfl) hc]
    rfl

theorem handle_temp_eq (ls : Str) (cmd : Command) (seg : Option Segment)
    (v : Option Int) (sl : Option Str) :
    ByteCodeInst.handle_temp ⟨ls, cmd, seg, v, sl⟩
      = if cmd = .PUSH then ByteCodeInst.build_push_temp v
        else ByteCodeInst.build_pop_temp v := rfl

theorem handle_static_eq (ls : Str) (cmd : Command) (seg : Option Segment)
    (v : Option Int) (sl : Option Str) :
    ByteCodeInst.handle_static ⟨ls, cmd, seg, v, sl⟩
      = if cmd = .PUSH then ByteCodeInst.build_push_static v sl
        else ByteCodeInst.build_pop_static v sl := rfl

theorem handle_generic_eq (ls : Str) (cmd : Command) (seg : Option Segment)
    (v : Option Int) (sl : Option Str) :
    ByteCodeInst.handle_generic_segment ⟨ls, cmd, seg, v, sl⟩
      = if cmd = .PUSH then ByteCodeInst.build_push_segment v seg
        else ByteCodeInst.build_pop_segment v seg := rfl

theorem handle_pointer_eq (ls : Str) (cmd : Command) (seg : Option Segment)
    (v : Option Int) (sl : Option Str) :
    ByteCodeInst.handle_pointer ⟨ls, cmd, seg, v, sl⟩
      = if cmd = .PUSH then ByteCodeInst.build_push_pointer ⟨ls, cmd, seg, v, sl⟩
        else ByteCodeInst.build_pop_pointer ⟨ls, cmd, seg, v, sl⟩ := rfl

/-- C7: every snippet a successful `to_asm` returns is normalized: it is
non-empty, contains no `//` comment text, and no line of it is blank,
because every generated snippet is passed back through
`clean_instructions` before being returned. -/
theorem to_asm_output_normalized (inst : ByteCodeInst) (out : Str)
    (h : ByteCodeInst.to_asm inst = .ok out) :
    out ≠ [] ∧ containsDD out = false ∧
    ∀ l ∈ splitNl out, l ≠ [] ∧ containsDD l = false := by
  obtain ⟨ls, cmd, seg, v, sl⟩ := inst
  have main : ∀ snippet : Str, clean snippet ≠ [] →
      out = clean_instructions snippet false →
      out ≠ [] ∧ containsDD out = false ∧
      ∀ l ∈ splitNl out, l ≠ [] ∧ containsDD l = false := by
    intro sn hne hout
    subst hout
    exact out_quality sn hne
  rcases seg with _ | sg
  · rcases cmd with _ | _ | _ | _ | _ | _ | _ | _ | _ | _ | _
    · exact Except.noConfusion h
    · exact Except.noConfusion h
    · exact main _ (by decide) (Except.ok.inj h).symm
    · exact main _ (by decide) (Except.ok.inj h).symm
    · exact main _ (by decide) (Except.ok.inj h).symm
    · refine main _ ?_ (Except.ok.inj h).symm
      unfold ByteCodeInst.build_eq
      exact clean_ne_nil_append _ _ "D=0".data (by decide)
        (show cleanLine "D=0".data = some "D=0".data by decide)
    · refine main _ ?_ (Except.ok.inj h).symm
      unfold ByteCodeInst.build_gt
      exact clean_ne_nil_append _ _ "D=0".data (by decide)
        (show cleanLine "D=0".data = some "D=0".data by decide)
    · exact Except.noConfusion h
    · exact main _ (by decide) (Except.ok.inj h).symm
    · exact main _ (by decide) (Except.ok.inj h).symm
    · exact main _ (by decide) (Except.ok.inj h).symm
  · rcases sg with _ | _ | _ | _ | _ | _ | _ | _
    · -- CONSTANT
      refine main _ ?_ (Except.ok.inj h).symm
      unfold ByteCodeInst.build_push_constant
      exact clean_ne_nil_append _ _ "D=A".data (by decide)
        (show cleanLine "D=A".data = some "D=A".data by decide)
    · -- LCL
      refine main _ ?_ (Except.ok.inj h).symm
      rw [handle_generic_eq]
      by_cases hc : cmd = Command.PUSH
      · rw [if_pos hc]
        unfold ByteCodeInst.build_push_segment
        exact clean_ne_nil_append _ _ "A=D".data (by decide)
          (show cleanLine "A=D".data = some "A=D".data by decide)
      · rw [if_neg hc]
        unfold ByteCodeInst.build_pop_segment
        exact clean_ne_nil_append _ _ "@SP".data (by decide)
          (show cleanLine "@SP".data = some "@SP".data by decide)
    · -- ARG
      refine main _ ?_ (Except.ok.inj h).symm
      rw [handle_generic_eq]
      by_cases hc : cmd = Command.PUSH
      · rw [if_pos hc]
        unfold ByteCodeInst.build_push_segment
        exact clean_ne_nil_append _ _ "A=D".data (by decide)
          (show cleanLine "A=D".data = some "A=D".data by decide)
      · rw [if_neg hc]
        unfold ByteCodeInst.build_pop_segment
        exact clean_ne_nil_append _ _ "@SP".data (by decide)
          (show cleanLine "@SP".data = some "@SP".data by decide)
    · -- THIS
      refine main _ ?_ (Except.ok.inj h).symm
      rw [handle_generic_eq]
      by_cases hc : cmd = Command.PUSH
      · rw [if_pos hc]
        unfold ByteCodeInst.build_push_segment
        exact clean_ne_nil_append _ _ "A=D".data (by decide)
          (show cleanLine "A=D".data = some "A=D".data by decide)
      · rw [if_neg hc]
        unfold ByteCodeInst.build_pop_segment
        exact clean_ne_nil_append _ _ "@SP".data (by decide)
          (show cleanLine "@SP".data = some "@SP".data by decide)
    · -- THAT
      refine main _ ?_ (Except.ok.inj h).symm
      rw [handle_generic_eq]
      by_cases hc : cmd = Command.PUSH
      · rw [if_pos hc]
        unfold ByteCodeInst.build_push_segment
        exact clean_ne_nil_append _ _ "A=D".data (by decide)
          (show cleanLine "A=D".data = some "A=D".data by decide)
      · rw [if_neg hc]
        unfold ByteCodeInst.build_pop_segment
        exact clean_ne_nil_append _ _ "@SP".data (by decide)
          (show cleanLine "@SP".data = some "@SP".data by decide)
    · -- TEMP
      refine main _ ?_ (Except.ok.inj h).symm
      rw [handle_temp_eq]
      by_cases hc : cmd = Command.PUSH
      · rw [if_pos hc]
        unfold ByteCodeInst.build_push_temp
        exact clean_ne_nil_append _ _ "D=A".data (by decide)
          (show cleanLine "D=A".data = some "D=A".data by decide)
      · rw [if_neg hc]
        unfold ByteCodeInst.build_pop_temp
        exact clean_ne_nil_append _ _ "@5".data (by decide)
          (show cleanLine "@5".data = some "@5".data by decide)
    · -- STATIC
      refine main _ ?_ (Except.ok.inj h).symm
      rw [handle_static_eq]
      by_cases hc : cmd = Command.PUSH
      · rw [if_pos hc]
        unfold ByteCodeInst.build_push_static
        exact clean_ne_nil_append _ _ "D=M".data (by decide)
          (show cleanLine "D=M".data = some "D=M".data by decide)
      · rw [if_neg hc]
        unfold ByteCodeInst.build_pop_static
        exact clean_ne_nil_append _ _ "M=D".data (by decide)
          (show cleanLine "M=D".data = some "M=D".data by decide)
    · -- POINTER
      have h2 : (ByteCodeInst.handle_pointer ⟨ls, cmd, some .POINTER, v, sl⟩).map
          (fun s => clean_instructions s false) = .ok out := h
      rw [handle_pointer_eq] at h2
      by_cases hc : cmd = Command.PUSH
      · rw [if_pos hc] at h2
        by_cases h1 : v = some 1
        · subst h1
          exact main _ (by decide) (Except.ok.inj h2).symm
        · by_cases h0 : v = some 0
          · subst h0
            exact main _ (by decide) (Except.ok.inj h2).symm
          · rw [show ByteCodeInst.build_push_pointer ⟨ls, cmd, some .POINTER, v, sl⟩
                = .error .invalidSegment from by
                unfold ByteCodeInst.build_push_pointer ByteCodeInst.get_pointer
                rw [if_neg (show ¬ (ByteCodeInst.value ⟨ls, cmd, some .POINTER, v, sl⟩
                    = some 1) from h1),
                  if_neg (show ¬ (ByteCodeInst.value ⟨ls, cmd, some .POINTER, v, sl⟩
                    = some 0) from h0)]
                rfl] at h2
            exact Except.noConfusion h2
      · rw [if_neg hc] at h2
        by_cases h1 : v = some 1
        · subst h1
          exact main _ (by decide) (Except.ok.inj h2).symm
        · by_cases h0 : v = some 0
          · subst h0
            exact main _ (by decide) (Except.ok.inj h2).symm
          · rw [show ByteCodeInst.build_pop_pointer ⟨ls, cmd, some .POINTER, v, sl⟩
                = .error .invalidSegment from by
                unfold ByteCodeInst.build_pop_pointer ByteCodeInst.get_pointer
                rw [if_neg (show ¬ (ByteCodeInst.value ⟨ls, cmd, some .POINTER, v, sl⟩
                    = some 1) from h1),
                  if_neg (show ¬ (ByteCodeInst.value ⟨ls, cmd, some .POINTER, v, sl⟩
                    = some 0) from h0)]
                rfl] at h2
            exact Except.noConfusion h2

/-- Witness for C7 at the `eq` instruction with suffix `"42"`. -/
theorem to_asm_output_normalized_witness :
    "@SP\nM=M-1\nA=M\nD=M\n@SP\nM=M-1\nA=M\nD=M-D\nM=D\n@IS_EQ42\nD;JEQ\n@ELSE42\nD;JNE\n(IS_EQ42)\n@SP\nA=M\nM=-1\n@SP\nM=M+1\n@END_IF42\n0;JEQ\n(ELSE42)\n@SP\nA=M\nM=0\n@SP\nM=M+1\n(END_IF42)\nD=0".data ≠ ([] : Str) ∧
    containsDD "@SP\nM=M-1\nA=M\nD=M\n@SP\nM=M-1\nA=M\nD=M-D\nM=D\n@IS_EQ42\nD;JEQ\n@ELSE42\nD;JNE\n(IS_EQ42)\n@SP\nA=M\nM=-1\n@SP\nM=M+1\n@END_IF42\n0;JEQ\n(ELSE42)\n@SP\nA=M\nM=0\n@SP\nM=M+1\n(END_IF42)\nD=0".data = false ∧
    ∀ l ∈ splitNl "@SP\nM=M-1\nA=M\nD=M\n@SP\nM=M-1\nA=M\nD=M-D\nM=D\n@IS_EQ42\nD;JEQ\n@ELSE42\nD;JNE\n(IS_EQ42)\n@SP\nA=M\nM=-1\n@SP\nM=M+1\n@END_IF42\n0;JEQ\n(ELSE42)\n@SP\nA=M\nM=0\n@SP\nM=M+1\n(END_IF42)\nD=0".data,
      l ≠ [] ∧ containsDD l = false :=
  to_asm_output_normalized ⟨"42".data, .EQ, none, none, none⟩ _ (by decide)

/-- Witness for C3: out-of-range value 2 fails, `pop pointer 0` addresses
`THIS`. -/
theorem pointer_bounds_witness :
    ByteCodeInst.to_asm ⟨[], .PUSH, some .POINTER, some 2, none⟩
      = .error .invalidSegment ∧
    ByteCodeInst.to_asm ⟨[], .POP, some .POINTER, some 0, none⟩
      = .ok "@SP\nM=M-1\nA=M\nD=M\n@THIS\nM=D".data :=
  ⟨(pointer_bounds ⟨[], .PUSH, some .POINTER, some 2, none⟩ rfl).1.mpr (by decide),
    (pointer_bounds ⟨[], .POP, some .POINTER, some 0, none⟩ rfl).2.2.1 rfl (by decide)⟩

end N2T
